import Mathlib

/-!
Verification of the Iron Vault mechanics notation parsers of
`nickarrow/ironverse-site` (files `iron-vault-inline.ts` and
`iron-vault-blocks.ts`).

Strings are modelled as `List Char` (`Str`).  TypeScript `number` values are
modelled as `JsNum`: either `NaN` or an exact rational (every numeric literal
the parsers read is a finite decimal, so rationals are exact).  JavaScript
string builtins (`split`, `trim`, `indexOf`, `substring`, regex scans with
the specific patterns the source uses) are given direct executable models.
-/

abbrev Str := List Char

/-- Character list of a string literal. -/
def toStr (s : String) : Str := s.data

/-- The apostrophe character. -/
def aposChar : Char := Char.ofNat 39

/-- The double-quote character. -/
def quoteChar : Char := Char.ofNat 34

/-- The opening-brace character. -/
def braceOpen : Char := Char.ofNat 123

/-- The closing-brace character. -/
def braceClose : Char := Char.ofNat 125

/-- The backslash character. -/
def backslashChar : Char := Char.ofNat 92

/-- JavaScript whitespace (`\s`), restricted to the ASCII range: space, tab,
newline, carriage return, vertical tab, form feed. -/
def isJsWs (c : Char) : Bool :=
  c = ' ' || c = Char.ofNat 9 || c = Char.ofNat 10 || c = Char.ofNat 13 ||
  c = Char.ofNat 11 || c = Char.ofNat 12

/-- JavaScript word character (`\w` = `[A-Za-z0-9_]`). -/
def isWordChar (c : Char) : Bool :=
  (('a' ≤ c && c ≤ 'z') || ('A' ≤ c && c ≤ 'Z') || ('0' ≤ c && c ≤ '9') || c = '_')

/-- ASCII decimal digit (`\d`). -/
def isDigitChar (c : Char) : Bool := '0' ≤ c && c ≤ '9'

/-- ASCII lower-casing of one character, the fragment of
`String.prototype.toLowerCase` the inputs exercise. -/
def jsToLower (c : Char) : Char :=
  if 'A' ≤ c ∧ c ≤ 'Z' then Char.ofNat (c.toNat + 32) else c

/-- `s.toLowerCase()` (ASCII fragment). -/
def lowerStr (s : Str) : Str := s.map jsToLower

/-- `s.split(sep)` for a single-character separator; `"".split(sep)` is
`[""]`, matching JavaScript. -/
def splitOnChar (c : Char) : Str → List Str
  | [] => [[]]
  | x :: xs =>
    let r := splitOnChar c xs
    if x = c then [] :: r
    else
      match r with
      | [] => [[x]]
      | h :: t => (x :: h) :: t

/-- `array.join("\n")`. -/
def joinNl : List Str → Str
  | [] => []
  | [x] => x
  | x :: xs => x ++ Char.ofNat 10 :: joinNl xs

/-- `s.trimStart()`-style removal of trailing whitespace (applied to the
reversed list). -/
def trimEndStr (s : Str) : Str := (s.reverse.dropWhile isJsWs).reverse

/-- `s.trim()`. -/
def trimStr (s : Str) : Str := trimEndStr (s.dropWhile isJsWs)

/-- First index of a character, `s.indexOf(c)`; `none` models `-1`. -/
def idxOfChar (s : Str) (c : Char) : Option Nat :=
  match s with
  | [] => none
  | x :: xs => if x = c then some 0 else (idxOfChar xs c).map (· + 1)

/-- Last index of a character, `s.lastIndexOf(c)`; `none` models `-1`. -/
def lastIdxOfChar (s : Str) (c : Char) : Option Nat :=
  (idxOfChar s.reverse c).map (fun i => s.length - 1 - i)

/-- `s.substring(a, b)`: clamps both indices to the string length and swaps
them when `a > b`, exactly as JavaScript does. -/
def substringJS (s : Str) (a b : Nat) : Str :=
  let a' := min a s.length
  let b' := min b s.length
  (s.take (max a' b')).drop (min a' b')

/-- `s.includes(pat)`. -/
def containsSubstr (s pat : Str) : Bool :=
  if pat.isPrefixOf s then true
  else
    match s with
    | [] => false
    | _ :: t => containsSubstr t pat

/-- `s.replace(/c/g, rep)` for a single character `c`. -/
def replaceAllChar (c : Char) (rep : Str) (s : Str) : Str :=
  s.flatMap (fun x => if x = c then rep else [x])

/-- `s.replace(/\.md$/, "")`. -/
def stripMdSuffix (s : Str) : Str :=
  if (toStr ".md").isSuffixOf s then s.take (s.length - 3) else s

/-- `s.replace(/\\\//g, "/")`: unescape the Iron Vault escaped path
separator. -/
def unescSlashes : Str → Str
  | [] => []
  | x :: y :: rest =>
    if x = backslashChar ∧ y = '/' then '/' :: unescSlashes rest
    else x :: unescSlashes (y :: rest)
  | [x] => [x]

/-- `s.replace(/\s+/g, "-")`, one hyphen per maximal whitespace run.  The
flag records whether the previous character was inside a whitespace run. -/
def hyphAux : Bool → Str → Str
  | _, [] => []
  | prevWs, c :: cs =>
    if isJsWs c then
      if prevWs then hyphAux true cs else '-' :: hyphAux true cs
    else c :: hyphAux false cs

/-- `s.replace(/\s+/g, "-")`. -/
def hyphenateWs (s : Str) : Str := hyphAux false s

/-- `s.replace(/[()]/g, "")`. -/
def removeParens (s : Str) : Str := s.filter (fun c => !(c = '(' || c = ')'))

/-- `s.replace(/'/g, "")`. -/
def removeApos (s : Str) : Str := s.filter (fun c => !(c = aposChar))

/-- Truthiness-based default for strings: `s || d`. -/
def jsOrStr (s d : Str) : Str := if s = [] then d else s

/-- `parseInt(s)` with radix 10 (decimal digits after optional sign and
leading whitespace; the hexadecimal auto-radix branch of `parseInt` is not
reachable from the notation and is not modelled).  `none` models `NaN`. -/
def jsParseInt (s : Str) : Option Int :=
  let s1 := s.dropWhile isJsWs
  let (neg, s2) : Bool × Str :=
    match s1 with
    | '-' :: r => (true, r)
    | '+' :: r => (false, r)
    | r => (false, r)
  let digits := s2.takeWhile isDigitChar
  if digits = [] then none
  else
    let n : Nat := digits.foldl (fun acc c => acc * 10 + (c.toNat - 48)) 0
    some (if neg then -(n : Int) else (n : Int))

/-- `parseInt(s) || d`: `NaN` and `0` both fall back to the default. -/
def parseIntOr (s : Str) (d : Int) : Int :=
  match jsParseInt s with
  | none => d
  | some n => if n = 0 then d else n

/-- A TypeScript `number`: `NaN` or an exact finite value.  (Infinities are
not produced by any reachable computation of the parsers and are not
modelled.) -/
inductive JsNum where
  | nan : JsNum
  | num (q : ℚ) : JsNum
deriving DecidableEq, Repr

namespace JsNum

/-- Addition; `NaN` propagates. -/
def add : JsNum → JsNum → JsNum
  | num a, num b => num (a + b)
  | _, _ => nan

/-- Subtraction; `NaN` propagates. -/
def sub : JsNum → JsNum → JsNum
  | num a, num b => num (a - b)
  | _, _ => nan

/-- Multiplication; `NaN` propagates. -/
def mul : JsNum → JsNum → JsNum
  | num a, num b => num (a * b)
  | _, _ => nan

/-- Division; `NaN` propagates.  The source only divides by the literal 4;
the division-by-zero case (±Infinity in JavaScript) is unreachable and is
modelled as `NaN`. -/
def div : JsNum → JsNum → JsNum
  | num a, num b => if b = 0 then nan else num (a / b)
  | _, _ => nan

/-- JavaScript `%`: remainder after truncated division; `x % 0` is `NaN`. -/
def jsMod : JsNum → JsNum → JsNum
  | num a, num b =>
    if b = 0 then nan
    else
      let t : Int := if 0 ≤ a / b then Rat.floor (a / b) else Rat.ceil (a / b)
      num (a - b * t)
  | _, _ => nan

/-- `Math.floor`. -/
def floorJs : JsNum → JsNum
  | num a => num ((Rat.floor a : Int) : ℚ)
  | nan => nan

/-- `Math.abs`. -/
def absJs : JsNum → JsNum
  | num a => num |a|
  | nan => nan

/-- `Math.min` (binary); any `NaN` argument yields `NaN`. -/
def minJs : JsNum → JsNum → JsNum
  | num a, num b => num (min a b)
  | _, _ => nan

/-- `a < b`; false when either side is `NaN`. -/
def ltJs : JsNum → JsNum → Bool
  | num a, num b => decide (a < b)
  | _, _ => false

/-- `a > b`; false when either side is `NaN`. -/
def gtJs (a b : JsNum) : Bool := ltJs b a

/-- `a >= b`; false when either side is `NaN`. -/
def geJs : JsNum → JsNum → Bool
  | num a, num b => decide (b ≤ a)
  | _, _ => false

/-- `a === b`; `NaN === NaN` is false. -/
def eqJs : JsNum → JsNum → Bool
  | num a, num b => decide (a = b)
  | _, _ => false

/-- Truthiness: `NaN` and `0` are falsy. -/
def truthy : JsNum → Bool
  | nan => false
  | num q => decide (q ≠ 0)

/-- `n || d` on numbers. -/
def orJs (n : JsNum) (d : JsNum) : JsNum := if n.truthy then n else d

end JsNum

/-- Decimal digits of a natural number. -/
def natToStr (n : Nat) : Str := (Nat.repr n).data

/-- Decimal rendering of an integer. -/
def intToStr (i : Int) : Str :=
  if i < 0 then '-' :: natToStr i.natAbs else natToStr i.toNat

/-- Fractional decimal digits of a rational in `[0,1)`; the fuel bounds the
number of emitted digits.  Every value reaching number-to-string conversion
in the parsers is a finite decimal, so the fuel is never exhausted on
reachable values. -/
def fracDigits : Nat → ℚ → Str
  | 0, _ => []
  | fuel + 1, q =>
    if q = 0 then []
    else
      let q10 := q * 10
      let d : Int := Rat.floor q10
      Char.ofNat (48 + d.toNat) :: fracDigits fuel (q10 - (d : ℚ))

/-- `String(n)` for a `JsNum` (decimal form; the exponent notation JavaScript
uses for very large magnitudes is unreachable here). -/
def jsNumToStr : JsNum → Str
  | JsNum.nan => toStr "NaN"
  | JsNum.num q =>
    if q.den = 1 then intToStr q.num
    else
      let sign : Str := if q < 0 then ['-'] else []
      let a := |q|
      sign ++ intToStr (Rat.floor a) ++ '.' :: fracDigits 64 (a - ((Rat.floor a : Int) : ℚ))

/-- `array.join(c)` for a one-character separator. -/
def joinChar (c : Char) : List Str → Str
  | [] => []
  | [x] => x
  | x :: xs => x ++ c :: joinChar c xs

/-- Split `code` at its first occurrence of `c`: the result pairs the part
before with the part after.  `none` models `indexOf` returning `-1`. -/
def splitAtFirstChar (c : Char) : Str → Option (Str × Str)
  | [] => none
  | x :: xs =>
    if x = c then some ([], xs)
    else
      match splitAtFirstChar c xs with
      | none => none
      | some (a, b) => some (x :: a, b)

/-- `s.split(/[/\\]/)`. -/
def splitOnSlashes : Str → List Str
  | [] => [[]]
  | x :: xs =>
    let r := splitOnSlashes xs
    if x = '/' ∨ x = backslashChar then [] :: r
    else
      match r with
      | [] => [[x]]
      | h :: t => (x :: h) :: t

/-!
The inline mechanics parser, `iron-vault-inline.ts`.
-/

namespace IVInline

/-- The `FileInfo` record used for filename lookup. -/
structure FileInfo where
  slug : Str
  title : Str
  path : Str

/-- The optional `filesByName` map, modelled as an association list keyed by
lowercased basename. -/
abbrev FilesMap := List (Str × FileInfo)

/-- `getOutcome(score, vs1, vs2)` of the inline parser. -/
def getOutcome (score vs1 vs2 : JsNum) : Str :=
  if JsNum.gtJs score vs1 && JsNum.gtJs score vs2 then toStr "strong-hit"
  else if JsNum.gtJs score vs1 || JsNum.gtJs score vs2 then toStr "weak-hit"
  else toStr "miss"

/-- `isMatch(vs1, vs2)` of the inline parser. -/
def isMatch (vs1 vs2 : JsNum) : Bool := JsNum.eqJs vs1 vs2

/-- `escapeHtml` of the inline parser: four sequential global replacements,
ampersand first. -/
def escapeHtml (t : Str) : Str :=
  replaceAllChar quoteChar (toStr "&quot;")
    (replaceAllChar '>' (toStr "&gt;")
      (replaceAllChar '<' (toStr "&lt;")
        (replaceAllChar '&' (toStr "&amp;") t)))

/-- `pathToSlug` of the inline parser. -/
def pathToSlug (path : Str) : Str :=
  if path = [] then toStr "#"
  else removeApos (removeParens (hyphenateWs (lowerStr (stripMdSuffix path))))

/-- `resolvePathToSlug(path, filesByName)`. -/
def resolvePathToSlug (path : Str) (filesByName : Option FilesMap) : Str :=
  if path = [] then toStr "#"
  else
    let filename := jsOrStr ((splitOnSlashes (stripMdSuffix path)).getLast?.getD []) []
    let lookupKey := lowerStr filename
    match filesByName with
    | some m =>
      match m.lookup lookupKey with
      | some f => f.slug
      | none => pathToSlug path
    | none => pathToSlug path

/-- `ICONS.sparkles` from the inline parser. -/
def iconSparkles : Str :=
  toStr "<svg xmlns=\"http://www.w3.org/2000/svg\" width=\"24\" height=\"24\" viewBox=\"0 0 24 24\" fill=\"none\" stroke=\"currentColor\" stroke-width=\"2\" stroke-linecap=\"round\" stroke-linejoin=\"round\"><path d=\"M9.937 15.5A2 2 0 0 0 8.5 14.063l-6.135-1.582a.5.5 0 0 1 0-.962L8.5 9.936A2 2 0 0 0 9.937 8.5l1.582-6.135a.5.5 0 0 1 .963 0L14.063 8.5A2 2 0 0 0 15.5 9.937l6.135 1.581a.5.5 0 0 1 0 .964L15.5 14.063a2 2 0 0 0-1.437 1.437l-1.582 6.135a.5.5 0 0 1-.963 0z\"></path><path d=\"M20 3v4\"></path><path d=\"M22 5h-4\"></path><path d=\"M4 17v2\"></path><path d=\"M5 18H3\"></path></svg>"

/-- `ICONS.squareStack` from the inline parser. -/
def iconSquareStack : Str :=
  toStr "<svg xmlns=\"http://www.w3.org/2000/svg\" width=\"24\" height=\"24\" viewBox=\"0 0 24 24\" fill=\"none\" stroke=\"currentColor\" stroke-width=\"2\" stroke-linecap=\"round\" stroke-linejoin=\"round\"><path d=\"M4 10c-1.1 0-2-.9-2-2V4c0-1.1.9-2 2-2h4c1.1 0 2 .9 2 2\"></path><path d=\"M10 16c-1.1 0-2-.9-2-2v-4c0-1.1.9-2 2-2h4c1.1 0 2 .9 2 2\"></path><rect x=\"14\" y=\"14\" width=\"8\" height=\"8\" rx=\"2\"></rect></svg>"

/-- `ICONS.copyCheck` from the inline parser. -/
def iconCopyCheck : Str :=
  toStr "<svg xmlns=\"http://www.w3.org/2000/svg\" width=\"24\" height=\"24\" viewBox=\"0 0 24 24\" fill=\"none\" stroke=\"currentColor\" stroke-width=\"2\" stroke-linecap=\"round\" stroke-linejoin=\"round\"><path d=\"m12 15 2 2 4-4\"></path><rect x=\"8\" y=\"8\" width=\"14\" height=\"14\" rx=\"2\" ry=\"2\"></rect><path d=\"M4 16c-1.1 0-2-.9-2-2V4c0-1.1.9-2 2-2h10c1.1 0 2 .9 2 2\"></path></svg>"

/-- `ICONS.squareCheckBig` from the inline parser. -/
def iconSquareCheckBig : Str :=
  toStr "<svg xmlns=\"http://www.w3.org/2000/svg\" width=\"24\" height=\"24\" viewBox=\"0 0 24 24\" fill=\"none\" stroke=\"currentColor\" stroke-width=\"2\" stroke-linecap=\"round\" stroke-linejoin=\"round\"><path d=\"m9 11 3 3L22 4\"></path><path d=\"M21 12v7a2 2 0 0 1-2 2H5a2 2 0 0 1-2-2V5a2 2 0 0 1 2-2h11\"></path></svg>"

/-- `ICONS.rotateCcw` from the inline parser. -/
def iconRotateCcw : Str :=
  toStr "<svg xmlns=\"http://www.w3.org/2000/svg\" width=\"24\" height=\"24\" viewBox=\"0 0 24 24\" fill=\"none\" stroke=\"currentColor\" stroke-width=\"2\" stroke-linecap=\"round\" stroke-linejoin=\"round\"><path d=\"M3 12a9 9 0 1 0 9-9 9.75 9.75 0 0 0-6.74 2.74L3 8\"></path><path d=\"M3 3v5h5\"></path></svg>"

/-- `ICONS.filePlus` from the inline parser. -/
def iconFilePlus : Str :=
  toStr "<svg xmlns=\"http://www.w3.org/2000/svg\" width=\"24\" height=\"24\" viewBox=\"0 0 24 24\" fill=\"none\" stroke=\"currentColor\" stroke-width=\"2\" stroke-linecap=\"round\" stroke-linejoin=\"round\"><path d=\"M15 2H6a2 2 0 0 0-2 2v16a2 2 0 0 0 2 2h12a2 2 0 0 0 2-2V7Z\"></path><path d=\"M14 2v4a2 2 0 0 0 2 2h4\"></path><path d=\"M9 15h6\"></path><path d=\"M12 18v-6\"></path></svg>"

/-- `ICONS.filePenLine` from the inline parser. -/
def iconFilePenLine : Str :=
  toStr "<svg xmlns=\"http://www.w3.org/2000/svg\" width=\"24\" height=\"24\" viewBox=\"0 0 24 24\" fill=\"none\" stroke=\"currentColor\" stroke-width=\"2\" stroke-linecap=\"round\" stroke-linejoin=\"round\"><path d=\"m18 5-2.414-2.414A2 2 0 0 0 14.172 2H6a2 2 0 0 0-2 2v16a2 2 0 0 0 2 2h12a2 2 0 0 0 2-2\"></path><path d=\"M21.378 12.626a1 1 0 0 0-3.004-3.004l-4.01 4.012a2 2 0 0 0-.506.854l-.837 2.87a.5.5 0 0 0 .62.62l2.87-.837a2 2 0 0 0 .854-.506z\"></path><path d=\"M8 18h1\"></path></svg>"

/-- `ICONS.clock` from the inline parser. -/
def iconClock : Str :=
  toStr "<svg xmlns=\"http://www.w3.org/2000/svg\" width=\"24\" height=\"24\" viewBox=\"0 0 24 24\" fill=\"none\" stroke=\"currentColor\" stroke-width=\"2\" stroke-linecap=\"round\" stroke-linejoin=\"round\"><circle cx=\"12\" cy=\"12\" r=\"10\"></circle><polyline points=\"12 6 12 12 16 14\"></polyline></svg>"

/-- `ICONS.clockArrowUp` from the inline parser. -/
def iconClockArrowUp : Str :=
  toStr "<svg xmlns=\"http://www.w3.org/2000/svg\" width=\"24\" height=\"24\" viewBox=\"0 0 24 24\" fill=\"none\" stroke=\"currentColor\" stroke-width=\"2\" stroke-linecap=\"round\" stroke-linejoin=\"round\"><path d=\"M13.228 21.925A10 10 0 1 1 21.994 12.338\"></path><path d=\"M12 6v6l1.562.781\"></path><path d=\"m17 22 5-5\"></path><path d=\"m17 17 5 5\"></path></svg>"

/-- `ICONS.circleCheckBig` from the inline parser. -/
def iconCircleCheckBig : Str :=
  toStr "<svg xmlns=\"http://www.w3.org/2000/svg\" width=\"24\" height=\"24\" viewBox=\"0 0 24 24\" fill=\"none\" stroke=\"currentColor\" stroke-width=\"2\" stroke-linecap=\"round\" stroke-linejoin=\"round\"><path d=\"M21.801 10A10 10 0 1 1 17 3.335\"></path><path d=\"m9 11 3 3L22 4\"></path></svg>"

/-- `ICONS.trendingUp` from the inline parser. -/
def iconTrendingUp : Str :=
  toStr "<svg xmlns=\"http://www.w3.org/2000/svg\" width=\"24\" height=\"24\" viewBox=\"0 0 24 24\" fill=\"none\" stroke=\"currentColor\" stroke-width=\"2\" stroke-linecap=\"round\" stroke-linejoin=\"round\"><polyline points=\"22 7 13.5 15.5 8.5 10.5 2 17\"></polyline><polyline points=\"16 7 22 7 22 13\"></polyline></svg>"

/-- `ICONS.trendingDown` from the inline parser. -/
def iconTrendingDown : Str :=
  toStr "<svg xmlns=\"http://www.w3.org/2000/svg\" width=\"24\" height=\"24\" viewBox=\"0 0 24 24\" fill=\"none\" stroke=\"currentColor\" stroke-width=\"2\" stroke-linecap=\"round\" stroke-linejoin=\"round\"><polyline points=\"22 17 13.5 8.5 8.5 13.5 2 7\"></polyline><polyline points=\"16 17 22 17 22 11\"></polyline></svg>"

/-- `ICONS.flame` from the inline parser. -/
def iconFlame : Str :=
  toStr "<svg xmlns=\"http://www.w3.org/2000/svg\" width=\"24\" height=\"24\" viewBox=\"0 0 24 24\" fill=\"none\" stroke=\"currentColor\" stroke-width=\"2\" stroke-linecap=\"round\" stroke-linejoin=\"round\"><path d=\"M8.5 14.5A2.5 2.5 0 0 0 11 12c0-1.38-.5-2-1-3-1.072-2.143-.224-4.054 2-6 .5 2.5 2 4.9 4 6.5 2 1.6 3 3.5 3 5.5a7 7 0 1 1-14 0c0-1.153.433-2.294 1-3a2.5 2.5 0 0 0 2.5 2.5z\"></path></svg>"

/-- `ICONS.footprints` from the inline parser. -/
def iconFootprints : Str :=
  toStr "<svg xmlns=\"http://www.w3.org/2000/svg\" width=\"24\" height=\"24\" viewBox=\"0 0 24 24\" fill=\"none\" stroke=\"currentColor\" stroke-width=\"2\" stroke-linecap=\"round\" stroke-linejoin=\"round\"><path d=\"M4 16v-2.38C4 11.5 2.97 10.5 3 8c.03-2.72 1.49-6 4.5-6C9.37 2 10 3.8 10 5.5c0 3.11-2 5.66-2 8.68V16a2 2 0 1 1-4 0Z\"></path><path d=\"M20 20v-2.38c0-2.12 1.03-3.12 1-5.62-.03-2.72-1.49-6-4.5-6C14.63 6 14 7.8 14 9.5c0 3.11 2 5.66 2 8.68V20a2 2 0 1 0 4 0Z\"></path><path d=\"M16 17h4\"></path><path d=\"M4 13h4\"></path></svg>"

/-- `ICONS.dices` from the inline parser. -/
def iconDices : Str :=
  toStr "<svg xmlns=\"http://www.w3.org/2000/svg\" width=\"24\" height=\"24\" viewBox=\"0 0 24 24\" fill=\"none\" stroke=\"currentColor\" stroke-width=\"2\" stroke-linecap=\"round\" stroke-linejoin=\"round\"><rect width=\"12\" height=\"12\" x=\"2\" y=\"10\" rx=\"2\" ry=\"2\"></rect><path d=\"m17.92 14 3.5-3.5a2.24 2.24 0 0 0 0-3l-5-4.92a2.24 2.24 0 0 0-3 0L10 6\"></path><path d=\"M6 18h.01\"></path><path d=\"M10 14h.01\"></path><path d=\"M15 6h.01\"></path><path d=\"M18 9h.01\"></path></svg>"

/-- `ICONS.messageCircle` from the inline parser. -/
def iconMessageCircle : Str :=
  toStr "<svg xmlns=\"http://www.w3.org/2000/svg\" width=\"24\" height=\"24\" viewBox=\"0 0 24 24\" fill=\"none\" stroke=\"currentColor\" stroke-width=\"2\" stroke-linecap=\"round\" stroke-linejoin=\"round\"><path d=\"M7.9 20A9 9 0 1 0 4 16.1L2 22Z\"></path></svg>"

/-- `ICONS.skull` from the inline parser. -/
def iconSkull : Str :=
  toStr "<svg xmlns=\"http://www.w3.org/2000/svg\" width=\"24\" height=\"24\" viewBox=\"0 0 24 24\" fill=\"none\" stroke=\"currentColor\" stroke-width=\"2\" stroke-linecap=\"round\" stroke-linejoin=\"round\"><circle cx=\"9\" cy=\"12\" r=\"1\"></circle><circle cx=\"15\" cy=\"12\" r=\"1\"></circle><path d=\"M8 20v2h8v-2\"></path><path d=\"m12.5 17-.5-1-.5 1h1z\"></path><path d=\"M16 20a2 2 0 0 0 1.56-3.25 8 8 0 1 0-11.12 0A2 2 0 0 0 8 20\"></path></svg>"

/-- `renderMove` (`iv-move`). -/
def renderMove (content : Str) : Str :=
  let parts := splitOnChar '|' content
  let name := jsOrStr (parts.getD 0 []) []
  let stat := jsOrStr (parts.getD 1 []) []
  let action : Int := parseIntOr (parts.getD 2 []) 0
  let statValue : Int := parseIntOr (parts.getD 3 []) 0
  let adds : Int := parseIntOr (parts.getD 4 []) 0
  let vs1 : Int := parseIntOr (parts.getD 5 []) 0
  let vs2 : Int := parseIntOr (parts.getD 6 []) 0
  let score : Int := min 10 (action + statValue + adds)
  let outcome := getOutcome (.num score) (.num vs1) (.num vs2)
  let mtch := isMatch (.num vs1) (.num vs2)
  let classes := [toStr "iv-inline-mechanics", outcome] ++
    (if mtch then [toStr "match"] else [])
  toStr "<span class=\"" ++ joinChar ' ' classes ++ toStr "\">" ++
  toStr "<span class=\"iv-inline-outcome-icon\"></span>" ++
  toStr "<span class=\"iv-inline-move-name iv-inline-link\">" ++ escapeHtml name ++
    toStr "</span>" ++
  toStr "<span class=\"iv-inline-stat\">(" ++ escapeHtml stat ++ toStr ")</span>" ++
  toStr "<span class=\"iv-inline-separator\">—</span>" ++
  toStr "<span class=\"iv-inline-score\">" ++ intToStr score ++ toStr "</span>" ++
  toStr "<span> vs </span>" ++
  toStr "<span class=\"iv-inline-challenge-die vs1\">" ++ intToStr vs1 ++ toStr "</span>" ++
  toStr "<span>|</span>" ++
  toStr "<span class=\"iv-inline-challenge-die vs2\">" ++ intToStr vs2 ++ toStr "</span>" ++
  (if mtch then toStr "<span class=\"iv-inline-match\">match</span>" else []) ++
  toStr "</span>"

/-- `renderOracle` (`iv-oracle`).  Note that `roll` is interpolated without
`escapeHtml`. -/
def renderOracle (content : Str) : Str :=
  let parts := splitOnChar '|' content
  let name := jsOrStr (parts.getD 0 []) []
  let roll := jsOrStr (parts.getD 1 []) []
  let result := jsOrStr (parts.getD 2 []) []
  toStr "<span class=\"iv-inline-mechanics oracle\">" ++
  toStr "<span class=\"iv-inline-oracle-icon\">" ++ iconSparkles ++ toStr "</span>" ++
  toStr "<span class=\"iv-inline-oracle-name iv-inline-link\">" ++ escapeHtml name ++
    toStr "</span>" ++
  toStr "<span>(" ++ roll ++ toStr ")</span>" ++
  toStr "<span class=\"iv-inline-oracle-result\">" ++ escapeHtml result ++ toStr "</span>" ++
  toStr "</span>"

/-- `renderMeter` (`iv-meter`). -/
def renderMeter (content : Str) : Str :=
  let parts := splitOnChar '|' content
  let name := jsOrStr (parts.getD 0 []) []
  let fromVal : Int := parseIntOr (parts.getD 1 []) 0
  let toV : Int := parseIntOr (parts.getD 2 []) 0
  let delta := toV - fromVal
  let meterClass :=
    if delta > 0 then toStr "meter-increase"
    else if delta < 0 then toStr "meter-decrease" else []
  let icon := if delta ≥ 0 then iconTrendingUp else iconTrendingDown
  toStr "<span class=\"iv-inline-mechanics " ++ meterClass ++ toStr "\">" ++
  toStr "<span class=\"iv-inline-meter-icon\">" ++ icon ++ toStr "</span>" ++
  toStr "<span class=\"iv-inline-meter-name\">" ++ escapeHtml name ++ toStr ":</span>" ++
  toStr "<span class=\"iv-inline-meter-change\">" ++ intToStr fromVal ++ toStr " → " ++
    intToStr toV ++ toStr "</span>" ++
  toStr "</span>"

/-- `renderBurn` (`iv-burn`). -/
def renderBurn (content : Str) : Str :=
  let parts := splitOnChar '|' content
  let fromVal : Int := parseIntOr (parts.getD 0 []) 0
  let toV : Int := parseIntOr (parts.getD 1 []) 0
  toStr "<span class=\"iv-inline-mechanics burn\">" ++
  toStr "<span class=\"iv-inline-burn-icon\">" ++ iconFlame ++ toStr "</span>" ++
  toStr "<span class=\"iv-inline-burn-label\">Burn:</span>" ++
  toStr "<span class=\"iv-inline-burn-change\">" ++ intToStr fromVal ++ toStr " → " ++
    intToStr toV ++ toStr "</span>" ++
  toStr "</span>"

/-- The `initClass` computation of `renderInitiative`: case-insensitive
substring tests on the destination value. -/
def initiativeClass (toV : Str) : Str :=
  let toLower := lowerStr toV
  if containsSubstr toLower (toStr "control") ||
     containsSubstr toLower (toStr "initiative") then toStr "initiative-in-control"
  else if containsSubstr toLower (toStr "bad") ||
     containsSubstr toLower (toStr "no") then toStr "initiative-bad-spot"
  else if containsSubstr toLower (toStr "out") then toStr "initiative-out-of-combat"
  else toStr "initiative"

/-- `renderInitiative` (`iv-initiative`). -/
def renderInitiative (content : Str) : Str :=
  let parts := splitOnChar '|' content
  let fromV := jsOrStr (parts.getD 0 []) []
  let toV := jsOrStr (parts.getD 1 []) (jsOrStr (parts.getD 0 []) [])
  let initClass := initiativeClass toV
  toStr "<span class=\"iv-inline-mechanics " ++ initClass ++ toStr "\">" ++
  toStr "<span class=\"iv-inline-initiative-icon\">" ++ iconFootprints ++ toStr "</span>" ++
  toStr "<span class=\"iv-inline-initiative-label\">Position:</span>" ++
  toStr "<span class=\"iv-inline-initiative-change\">" ++ escapeHtml fromV ++ toStr " → " ++
    escapeHtml toV ++ toStr "</span>" ++
  toStr "</span>"

/-- `renderTrackCreate` (`iv-track-create`). -/
def renderTrackCreate (content : Str) (filesByName : Option FilesMap) : Str :=
  let parts := splitOnChar '|' content
  let name := jsOrStr (parts.getD 0 []) []
  let path := jsOrStr (parts.getD 1 []) []
  let slug := resolvePathToSlug path filesByName
  toStr "<span class=\"iv-inline-mechanics track-create\">" ++
  toStr "<span class=\"iv-inline-track-icon\">" ++ iconSquareStack ++ toStr "</span>" ++
  toStr "<a href=\"/" ++ slug ++ toStr "\" class=\"iv-inline-track-name iv-inline-link\">" ++
    escapeHtml name ++ toStr "</a>" ++
  toStr "</span>"

/-- `renderTrackAdvance` (`iv-track-advance`).  Note that `steps` defaults to
`1`, not `0`. -/
def renderTrackAdvance (content : Str) (filesByName : Option FilesMap) : Str :=
  let parts := splitOnChar '|' content
  let name := jsOrStr (parts.getD 0 []) []
  let path := jsOrStr (parts.getD 1 []) []
  let toV : Int := parseIntOr (parts.getD 3 []) 0
  let steps : Int := parseIntOr (parts.getD 5 []) 1
  let slug := resolvePathToSlug path filesByName
  let boxes : Int := Rat.floor ((toV : ℚ) / 4)
  toStr "<span class=\"iv-inline-mechanics track-advance\">" ++
  toStr "<span class=\"iv-inline-track-icon\">" ++ iconCopyCheck ++ toStr "</span>" ++
  toStr "<a href=\"/" ++ slug ++ toStr "\" class=\"iv-inline-track-name iv-inline-link\">" ++
    escapeHtml name ++ toStr "</a>" ++
  toStr "<span class=\"iv-inline-track-progress\"> +" ++ intToStr steps ++ toStr " (" ++
    intToStr boxes ++ toStr "/10)</span>" ++
  toStr "</span>"

/-- `renderTrackComplete` (`iv-track-complete`). -/
def renderTrackComplete (content : Str) (filesByName : Option FilesMap) : Str :=
  let parts := splitOnChar '|' content
  let name := jsOrStr (parts.getD 0 []) []
  let path := jsOrStr (parts.getD 1 []) []
  let slug := resolvePathToSlug path filesByName
  toStr "<span class=\"iv-inline-mechanics track-complete\">" ++
  toStr "<span class=\"iv-inline-track-icon\">" ++ iconSquareCheckBig ++ toStr "</span>" ++
  toStr "<a href=\"/" ++ slug ++ toStr "\" class=\"iv-inline-track-name iv-inline-link\">" ++
    escapeHtml name ++ toStr "</a>" ++
  toStr "<span class=\"iv-inline-track-status\">completed</span>" ++
  toStr "</span>"

/-- `renderProgressRoll` (`iv-progress`). -/
def renderProgressRoll (content : Str) (filesByName : Option FilesMap) : Str :=
  let parts := splitOnChar '|' content
  let name := jsOrStr (parts.getD 0 []) []
  let progress : Int := parseIntOr (parts.getD 1 []) 0
  let vs1 : Int := parseIntOr (parts.getD 2 []) 0
  let vs2 : Int := parseIntOr (parts.getD 3 []) 0
  let path := jsOrStr (parts.getD 4 []) []
  let outcome := getOutcome (.num progress) (.num vs1) (.num vs2)
  let mtch := isMatch (.num vs1) (.num vs2)
  let slug := if path = [] then [] else resolvePathToSlug path filesByName
  let classes := [toStr "iv-inline-mechanics", outcome] ++
    (if mtch then [toStr "match"] else [])
  toStr "<span class=\"" ++ joinChar ' ' classes ++ toStr "\">" ++
  toStr "<span class=\"iv-inline-outcome-icon\"></span>" ++
  toStr "<span class=\"iv-inline-progress-name iv-inline-link\">" ++ escapeHtml name ++
    toStr "</span>" ++
  (if slug = [] then []
   else toStr "<a href=\"/" ++ slug ++
     toStr "\" class=\"iv-inline-progress-track iv-inline-link\">(track)</a>") ++
  toStr "<span class=\"iv-inline-separator\">—</span>" ++
  toStr "<span class=\"iv-inline-score\">" ++ intToStr progress ++ toStr "</span>" ++
  toStr "<span> vs </span>" ++
  toStr "<span class=\"iv-inline-challenge-die vs1\">" ++ intToStr vs1 ++ toStr "</span>" ++
  toStr "<span>|</span>" ++
  toStr "<span class=\"iv-inline-challenge-die vs2\">" ++ intToStr vs2 ++ toStr "</span>" ++
  (if mtch then toStr "<span class=\"iv-inline-match\">match</span>" else []) ++
  toStr "</span>"

/-- `renderNoRoll` (`iv-noroll`). -/
def renderNoRoll (content : Str) : Str :=
  let parts := splitOnChar '|' content
  let name := jsOrStr (parts.getD 0 []) []
  toStr "<span class=\"iv-inline-mechanics no-roll\">" ++
  toStr "<span class=\"iv-inline-noroll-icon\">" ++ iconFilePenLine ++ toStr "</span>" ++
  toStr "<span class=\"iv-inline-move-name iv-inline-link\">" ++ escapeHtml name ++
    toStr "</span>" ++
  toStr "</span>"

/-- `renderEntityCreate` (`iv-entity-create`). -/
def renderEntityCreate (content : Str) (filesByName : Option FilesMap) : Str :=
  let parts := splitOnChar '|' content
  let ty := jsOrStr (parts.getD 0 []) []
  let name := jsOrStr (parts.getD 1 []) []
  let path := jsOrStr (parts.getD 2 []) []
  let slug := resolvePathToSlug path filesByName
  toStr "<span class=\"iv-inline-mechanics entity-create\">" ++
  toStr "<span class=\"iv-inline-entity-icon\">" ++ iconFilePlus ++ toStr "</span>" ++
  toStr "<span class=\"iv-inline-entity-type\">" ++ escapeHtml ty ++ toStr ":</span>" ++
  toStr "<a href=\"/" ++ slug ++ toStr "\" class=\"iv-inline-entity-name iv-inline-link\">" ++
    escapeHtml name ++ toStr "</a>" ++
  toStr "</span>"

/-- `renderClockCreate` (`iv-clock-create`).  Note that `segments` is a raw
string interpolated without `escapeHtml`. -/
def renderClockCreate (content : Str) (filesByName : Option FilesMap) : Str :=
  let parts := splitOnChar '|' content
  let name := jsOrStr (parts.getD 0 []) []
  let segments := jsOrStr (parts.getD 1 []) []
  let path := jsOrStr (parts.getD 2 []) []
  let slug := resolvePathToSlug path filesByName
  toStr "<span class=\"iv-inline-mechanics clock-create\">" ++
  toStr "<span class=\"iv-inline-clock-icon\">" ++ iconClock ++ toStr "</span>" ++
  toStr "<a href=\"/" ++ slug ++ toStr "\" class=\"iv-inline-clock-name iv-inline-link\">" ++
    escapeHtml name ++ toStr "</a>" ++
  toStr "<span class=\"iv-inline-clock-progress\">(0/" ++ segments ++ toStr ")</span>" ++
  toStr "</span>"

/-- `renderClockAdvance` (`iv-clock-advance`).  Note that `from`, `to` and
`segments` are raw strings interpolated without `escapeHtml`. -/
def renderClockAdvance (content : Str) (filesByName : Option FilesMap) : Str :=
  let parts := splitOnChar '|' content
  let name := jsOrStr (parts.getD 0 []) []
  let fromV := jsOrStr (parts.getD 1 []) (toStr "0")
  let toV := jsOrStr (parts.getD 2 []) (toStr "0")
  let segments := jsOrStr (parts.getD 3 []) []
  let path := jsOrStr (parts.getD 4 []) []
  let slug := resolvePathToSlug path filesByName
  toStr "<span class=\"iv-inline-mechanics clock-advance\">" ++
  toStr "<span class=\"iv-inline-clock-icon\">" ++ iconClockArrowUp ++ toStr "</span>" ++
  toStr "<a href=\"/" ++ slug ++ toStr "\" class=\"iv-inline-clock-name iv-inline-link\">" ++
    escapeHtml name ++ toStr "</a>" ++
  toStr "<span class=\"iv-inline-clock-progress\">" ++ fromV ++ toStr " → " ++ toV ++
    toStr "/" ++ segments ++ toStr "</span>" ++
  toStr "</span>"

/-- `renderClockResolve` (`iv-clock-resolve`). -/
def renderClockResolve (content : Str) (filesByName : Option FilesMap) : Str :=
  let parts := splitOnChar '|' content
  let name := jsOrStr (parts.getD 0 []) []
  let path := jsOrStr (parts.getD 1 []) []
  let slug := resolvePathToSlug path filesByName
  toStr "<span class=\"iv-inline-mechanics clock-resolve\">" ++
  toStr "<span class=\"iv-inline-clock-icon\">" ++ iconCircleCheckBig ++ toStr "</span>" ++
  toStr "<a href=\"/" ++ slug ++ toStr "\" class=\"iv-inline-clock-name iv-inline-link\">" ++
    escapeHtml name ++ toStr "</a>" ++
  toStr "<span class=\"iv-inline-clock-status\">resolved</span>" ++
  toStr "</span>"

/-- `renderDice` (`iv-dice`). -/
def renderDice (content : Str) : Str :=
  let parts := splitOnChar '|' content
  let expression := jsOrStr (parts.getD 0 []) []
  let result := jsOrStr (parts.getD 1 []) []
  toStr "<span class=\"iv-inline-mechanics dice-roll\">" ++
  toStr "<span class=\"iv-inline-dice-icon\">" ++ iconDices ++ toStr "</span>" ++
  toStr "<span class=\"iv-inline-dice-expression\">" ++ escapeHtml expression ++
    toStr "</span>" ++
  toStr "<span class=\"iv-inline-dice-arrow\">→</span>" ++
  toStr "<span class=\"iv-inline-dice-result\">" ++ escapeHtml result ++ toStr "</span>" ++
  toStr "</span>"

/-- `renderOOC` (`iv-ooc`); the content is a single field, never split. -/
def renderOOC (content : Str) : Str :=
  toStr "<span class=\"iv-inline-mechanics ooc\">" ++
  toStr "<span class=\"iv-inline-ooc-icon\">" ++ iconMessageCircle ++ toStr "</span>" ++
  toStr "<span class=\"iv-inline-ooc-text\">" ++ escapeHtml content ++ toStr "</span>" ++
  toStr "</span>"

/-- `parseInlineMechanic(code, filesByName)`: prefix test, split at the first
colon, dispatch on the kind tag; `none` models the `null` sentinel. -/
def parseInlineMechanic (code : Str) (filesByName : Option FilesMap) : Option Str :=
  if (toStr "iv-").isPrefixOf code then
    match splitAtFirstChar ':' code with
    | none => none
    | some (ty, content) =>
      if ty = toStr "iv-move" then some (renderMove content)
      else if ty = toStr "iv-oracle" then some (renderOracle content)
      else if ty = toStr "iv-meter" then some (renderMeter content)
      else if ty = toStr "iv-burn" then some (renderBurn content)
      else if ty = toStr "iv-initiative" then some (renderInitiative content)
      else if ty = toStr "iv-track-create" then some (renderTrackCreate content filesByName)
      else if ty = toStr "iv-track-advance" then some (renderTrackAdvance content filesByName)
      else if ty = toStr "iv-track-complete" then some (renderTrackComplete content filesByName)
      else if ty = toStr "iv-progress" then some (renderProgressRoll content filesByName)
      else if ty = toStr "iv-noroll" then some (renderNoRoll content)
      else if ty = toStr "iv-entity-create" then some (renderEntityCreate content filesByName)
      else if ty = toStr "iv-clock-create" then some (renderClockCreate content filesByName)
      else if ty = toStr "iv-clock-advance" then some (renderClockAdvance content filesByName)
      else if ty = toStr "iv-clock-resolve" then some (renderClockResolve content filesByName)
      else if ty = toStr "iv-dice" then some (renderDice content)
      else if ty = toStr "iv-ooc" then some (renderOOC content)
      else none
  else none

/-- The sixteen recognized inline kind tags, in dispatch order. -/
def kindTags : List Str :=
  [toStr "iv-move", toStr "iv-oracle", toStr "iv-meter", toStr "iv-burn",
   toStr "iv-initiative", toStr "iv-track-create", toStr "iv-track-advance",
   toStr "iv-track-complete", toStr "iv-progress", toStr "iv-noroll",
   toStr "iv-entity-create", toStr "iv-clock-create", toStr "iv-clock-advance",
   toStr "iv-clock-resolve", toStr "iv-dice", toStr "iv-ooc"]

end IVInline

/-!
The block mechanics parser, `iron-vault-blocks.ts`.
-/

namespace IVBlocks

/-- `escapeHtml` of the block parser: unescape `\/`, then the four HTML
replacements, ampersand first. -/
def escapeHtml (t : Str) : Str :=
  replaceAllChar quoteChar (toStr "&quot;")
    (replaceAllChar '>' (toStr "&gt;")
      (replaceAllChar '<' (toStr "&lt;")
        (replaceAllChar '&' (toStr "&amp;") (unescSlashes t))))

/-- `pathToSlug` of the block parser: unescape `\/`, strip `.md`, lowercase,
hyphenate whitespace, strip parentheses and apostrophes, then force exactly
one leading slash. -/
def pathToSlug (path : Str) : Str :=
  if path = [] then toStr "#"
  else
    let c1 := unescSlashes path
    let c2 := stripMdSuffix c1
    let c3 := removeApos (removeParens (hyphenateWs (lowerStr c2)))
    let c4 := c3.dropWhile (fun c => c = '/')
    '/' :: c4

/-- `getOutcome(score, vs1, vs2)` of the block parser (textually identical to
the inline parser's copy). -/
def getOutcome (score vs1 vs2 : JsNum) : Str :=
  if JsNum.gtJs score vs1 && JsNum.gtJs score vs2 then toStr "strong-hit"
  else if JsNum.gtJs score vs1 || JsNum.gtJs score vs2 then toStr "weak-hit"
  else toStr "miss"

/-- A prop value: either a quoted string or a parsed number. -/
inductive JsVal where
  | str (s : Str) : JsVal
  | num (q : ℚ) : JsVal
deriving DecidableEq, Repr

/-- The prop map, as the ordered list of assignments `parseProps` makes. -/
abbrev Props := List (Str × JsVal)

/-- Matcher for `(\w+)="([^"]*)"` anchored at the current position.  Since
`\w` excludes `=` and `[^"]` excludes `"`, the greedy sub-matches need no
backtracking.  Returns key, value and the number of characters consumed. -/
def matchQuotedAt (s : Str) : Option (Str × Str × Nat) :=
  let k := s.takeWhile isWordChar
  if k = [] then none
  else
    match s.drop k.length with
    | '=' :: rest =>
      match rest with
      | q :: rest2 =>
        if q = quoteChar then
          let v := rest2.takeWhile (fun c => !(c = quoteChar))
          match rest2.drop v.length with
          | q2 :: _ =>
            if q2 = quoteChar then some (k, v, k.length + 2 + v.length + 1) else none
          | [] => none
        else none
      | [] => none
    | _ => none

/-- `line.matchAll(/(\w+)="([^"]*)"/g)`: successive non-overlapping matches,
resuming after each match end.  The fuel (the line length suffices, as every
step consumes at least one character) keeps the recursion structural. -/
def scanQuotedF : Nat → Str → List (Str × Str)
  | 0, _ => []
  | _, [] => []
  | fuel + 1, s@(_ :: t) =>
    match matchQuotedAt s with
    | some (k, v, n) => (k, v) :: scanQuotedF fuel (s.drop n)
    | none => scanQuotedF fuel t

/-- All `key="value"` matches of a line. -/
def scanQuoted (s : Str) : List (Str × Str) := scanQuotedF s.length s

/-- Matcher for `(\w+)=(-?\d+(?:\.\d+)?)` anchored at the current position.
Returns key, the numeric token and the number of characters consumed. -/
def matchNumTokAt (s : Str) : Option (Str × Str × Nat) :=
  let k := s.takeWhile isWordChar
  if k = [] then none
  else
    match s.drop k.length with
    | '=' :: rest =>
      let negLen : Nat :=
        match rest with
        | '-' :: _ => 1
        | _ => 0
      let rest2 := rest.drop negLen
      let ds := rest2.takeWhile isDigitChar
      if ds = [] then none
      else
        let rest3 := rest2.drop ds.length
        let fracLen : Nat :=
          match rest3 with
          | '.' :: r4 =>
            let fs := r4.takeWhile isDigitChar
            if fs = [] then 0 else 1 + fs.length
          | _ => 0
        let tokLen := negLen + ds.length + fracLen
        some (k, (s.drop (k.length + 1)).take tokLen, k.length + 1 + tokLen)
    | _ => none

/-- `line.matchAll(/(\w+)=(-?\d+(?:\.\d+)?)/g)`. -/
def scanNumF : Nat → Str → List (Str × Str)
  | 0, _ => []
  | _, [] => []
  | fuel + 1, s@(_ :: t) =>
    match matchNumTokAt s with
    | some (k, v, n) => (k, v) :: scanNumF fuel (s.drop n)
    | none => scanNumF fuel t

/-- All `key=number` matches of a line. -/
def scanNum (s : Str) : List (Str × Str) := scanNumF s.length s

/-- Exact value of a `-?\d+(?:\.\d+)?` token (`parseFloat` on tokens of this
shape is exact). -/
def parseDecTok (t : Str) : ℚ :=
  let negLen : Nat := match t with | '-' :: _ => 1 | _ => 0
  let t1 := t.drop negLen
  let ds := t1.takeWhile isDigitChar
  let ip : Nat := ds.foldl (fun a c => a * 10 + (c.toNat - 48)) 0
  let rest := t1.drop ds.length
  let fq : ℚ :=
    match rest with
    | '.' :: fr =>
      let fs := fr.takeWhile isDigitChar
      ((fs.foldl (fun a c => a * 10 + (c.toNat - 48)) 0 : Nat) : ℚ) / ((10 : ℚ) ^ fs.length)
    | _ => 0
  let m : ℚ := (ip : ℚ) + fq
  if negLen = 1 then -m else m

/-- `parseProps(line)`: the quoted pass assigns first, then the numeric pass;
within each pass later matches overwrite earlier ones on the same key. -/
def parseProps (line : Str) : Props :=
  ((scanQuoted line).map (fun kv => (kv.1, JsVal.str kv.2))) ++
  ((scanNum line).map (fun kv => (kv.1, JsVal.num (parseDecTok kv.2))))

/-- `props[k]` under last-assignment-wins semantics. -/
def getProp (p : Props) (k : Str) : Option JsVal := p.reverse.lookup k

/-- Template-literal / `String(v)` rendering of a prop value. -/
def jsValToStr : JsVal → Str
  | .str s => s
  | .num q => jsNumToStr (JsNum.num q)

/-- JavaScript truthiness of a prop value. -/
def jsValTruthy : JsVal → Bool
  | .str s => !(s = [])
  | .num q => decide (q ≠ 0)

/-- `props[k] || d` at the `JsVal` level. -/
def propOr (p : Props) (k : Str) (d : JsVal) : JsVal :=
  match getProp p k with
  | none => d
  | some v => if jsValTruthy v then v else d

/-- `Number(s)` on decimal string forms; other numeric literal shapes
(hexadecimal, exponent, `Infinity`), unreachable from the notation, are
modelled as `NaN`. -/
def jsNumberOfStr (s : Str) : JsNum :=
  let t := trimStr s
  if t = [] then .num 0
  else
    let negLen : Nat := match t with | '-' :: _ => 1 | '+' :: _ => 1 | _ => 0
    let isNeg : Bool := match t with | '-' :: _ => true | _ => false
    let t1 := t.drop negLen
    let ds := t1.takeWhile isDigitChar
    let r1 := t1.drop ds.length
    let fs : Str := match r1 with
      | '.' :: fr => fr.takeWhile isDigitChar
      | _ => []
    let r2 : Str := match r1 with
      | '.' :: fr => fr.dropWhile isDigitChar
      | _ => r1
    if r2 = [] ∧ ¬(ds = [] ∧ fs = []) then
      let ip : Nat := ds.foldl (fun a c => a * 10 + (c.toNat - 48)) 0
      let fq : ℚ :=
        ((fs.foldl (fun a c => a * 10 + (c.toNat - 48)) 0 : Nat) : ℚ) / ((10 : ℚ) ^ fs.length)
      let m : ℚ := (ip : ℚ) + fq
      .num (if isNeg then -m else m)
    else .nan

/-- `(props[k] || d) as string`.  The TypeScript cast does not convert a
numeric prop at runtime (the string methods later applied to it would throw
a `TypeError`); the model stringifies instead.  No input exercised by the
theorems below reaches that branch. -/
def propOrStr (p : Props) (k : Str) (d : Str) : Str :=
  jsValToStr (propOr p k (.str d))

/-- `(props[k] || d) as number`, coercing string-valued props with `Number`
semantics at the read (see `propOrStr` for the modelling note; JavaScript
would keep the string and coerce at each arithmetic use). -/
def propOrNum (p : Props) (k : Str) (d : ℚ) : JsNum :=
  match propOr p k (.num d) with
  | .num q => .num q
  | .str s => jsNumberOfStr s

/-- `props[k] as T | undefined` read without a default, as `JsNum`;
string-valued props are coerced as in `propOrNum`. -/
def propNumOpt (p : Props) (k : Str) : Option JsNum :=
  match getProp p k with
  | none => none
  | some (.num q) => some (.num q)
  | some (.str s) => some (jsNumberOfStr s)

/-- Coerce a prop value to a number with `Number` semantics (see the
`propOrStr` modelling note). -/
def coerceNum : JsVal → JsNum
  | .num q => .num q
  | .str s => jsNumberOfStr s

/-- Try a position-anchored matcher at every position of the string,
leftmost match first, as the regex engine's search does.  (All matchers
used here need at least one character, so the final empty position never
matches.) -/
def findAtPos {α : Type} (f : Str → Option α) : Str → Option α
  | [] => none
  | s@(_ :: t) =>
    match f s with
    | some a => some a
    | none => findAtPos f t

/-- Consume an exact literal. -/
def eatLit (lit : Str) (s : Str) : Option Str :=
  if lit.isPrefixOf s then some (s.drop lit.length) else none

/-- Consume `\s+` (one or more whitespace characters). -/
def eatWs1 (s : Str) : Option Str :=
  let w := s.takeWhile isJsWs
  if w = [] then none else some (s.drop w.length)

/-- Consume `"([^"]+)"`: a quoted nonempty capture with its remainder. -/
def eatQuoted1 (s : Str) : Option (Str × Str) :=
  match s with
  | q :: rest =>
    if q = quoteChar then
      let v := rest.takeWhile (fun c => !(c = quoteChar))
      if v = [] then none
      else
        match rest.drop v.length with
        | q2 :: r2 => if q2 = quoteChar then some (v, r2) else none
        | [] => none
    else none
  | [] => none

/-- Consume `(\d+)` with its remainder. -/
def eatDigits1 (s : Str) : Option (Str × Str) :=
  let d := s.takeWhile isDigitChar
  if d = [] then none else some (d, s.drop d.length)

/-- `parseInt` on a pure digit capture. -/
def digitsToInt (d : Str) : Int :=
  ((d.foldl (fun a c => a * 10 + (c.toNat - 48)) 0 : Nat) : Int)

/-- Anchored matcher for `move\s+"([^"]+)"`. -/
def matchMoveNameAt (s : Str) : Option Str := do
  let s1 ← eatLit (toStr "move") s
  let s2 ← eatWs1 s1
  let (v, _) ← eatQuoted1 s2
  pure v

/-- Consume `key` followed by `(\\d+)`. -/
def eatKeyNum (key : String) (s : Str) : Option (Int × Str) := do
  let s1 ← eatLit (toStr key) s
  let (d, s2) ← eatDigits1 s1
  pure (digitsToInt d, s2)

/-- Consume `key` followed by `"([^"]+)"`. -/
def eatKeyQuoted (key : String) (s : Str) : Option (Str × Str) := do
  let s1 ← eatLit (toStr key) s
  eatQuoted1 s1

/-- Anchored matcher for
`roll\\s+"([^"]+)"\\s+action=(\\d+)\\s+adds=(\\d+)\\s+stat=(\\d+)\\s+vs1=(\\d+)\\s+vs2=(\\d+)`;
captures in source order. -/
def matchMoveRollAt (s : Str) : Option (Str × Int × Int × Int × Int × Int) := do
  let s1 ← eatLit (toStr "roll") s
  let s2 ← eatWs1 s1
  let (stat, s3) ← eatQuoted1 s2
  let s4 ← eatWs1 s3
  let (a, s5) ← eatKeyNum "action=" s4
  let s6 ← eatWs1 s5
  let (ad, s7) ← eatKeyNum "adds=" s6
  let s8 ← eatWs1 s7
  let (st, s9) ← eatKeyNum "stat=" s8
  let s10 ← eatWs1 s9
  let (v1, s11) ← eatKeyNum "vs1=" s10
  let s12 ← eatWs1 s11
  let (v2, _) ← eatKeyNum "vs2=" s12
  pure (stat, a, ad, st, v1, v2)

/-- Anchored matcher for `\[([^\]]+)\]\(([^)]+)\)`, returning the text
capture and the number of characters consumed. -/
def matchMdLinkAt (s : Str) : Option (Str × Nat) :=
  match s with
  | '[' :: rest =>
    let cap := rest.takeWhile (fun c => !(c = ']'))
    if cap = [] then none
    else
      match rest.drop cap.length with
      | ']' :: '(' :: r2 =>
        let tgt := r2.takeWhile (fun c => !(c = ')'))
        if tgt = [] then none
        else
          match r2.drop tgt.length with
          | ')' :: _ => some (cap, 1 + cap.length + 2 + tgt.length + 1)
          | _ => none
      | _ => none
  | _ => none

/-- `name.replace(/\[([^\]]+)\]\(([^)]+)\)/, "$1")`: replace the first
Markdown link with its text. -/
def stripMdLink : Str → Str
  | [] => []
  | s@(c :: rest) =>
    match matchMdLinkAt s with
    | some (cap, n) => cap ++ s.drop n
    | none => c :: stripMdLink rest

/-- Anchored matcher for `name="\[\[([^|]+)\|([^\]]+)\]\]"`, returning the
path and display captures. -/
def matchWikilinkAt (s : Str) : Option (Str × Str) := do
  let s1 ← eatLit (toStr "name=\"[[") s
  let p := s1.takeWhile (fun c => !(c = '|'))
  if p = [] then none
  else
    match s1.drop p.length with
    | '|' :: r2 =>
      let d := r2.takeWhile (fun c => !(c = ']'))
      if d = [] then none
      else
        match r2.drop d.length with
        | ']' :: ']' :: q :: _ => if q = quoteChar then some (p, d) else none
        | _ => none
    | _ => none

/-- Anchored matcher for `\[\[([^|]+)\|([^\]]+)\]\]`. -/
def matchDoubleLinkAt (s : Str) : Option (Str × Str) :=
  match s with
  | '[' :: '[' :: r =>
    let p := r.takeWhile (fun c => !(c = '|'))
    if p = [] then none
    else
      match r.drop p.length with
      | '|' :: r2 =>
        let d := r2.takeWhile (fun c => !(c = ']'))
        if d = [] then none
        else
          match r2.drop d.length with
          | ']' :: ']' :: _ => some (p, d)
          | _ => none
      | _ => none
  | _ => none

/-- Anchored matcher for `status="([^"]+)"`. -/
def matchStatusAt (s : Str) : Option Str := do
  let (v, _) ← eatKeyQuoted "status=" s
  pure v

/-- Anchored matcher for `actor\s+name="([^"]+)"`. -/
def matchActorNameAt (s : Str) : Option Str := do
  let s1 ← eatLit (toStr "actor") s
  let s2 ← eatWs1 s1
  let (v, _) ← eatKeyQuoted "name=" s2
  pure v

/-- Anchored matcher for `oracle-group\s+name="([^"]+)"`. -/
def matchGroupNameAt (s : Str) : Option Str := do
  let s1 ← eatLit (toStr "oracle-group") s
  let s2 ← eatWs1 s1
  let (v, _) ← eatKeyQuoted "name=" s2
  pure v

/-- Anchored matcher for
`oracle\s+name="([^"]+)"\s+result="([^"]+)"\s+roll=(\d+)`, returning the
captures and the remainder after the match. -/
def matchGroupOracleAt (s : Str) : Option ((Str × Str × Str) × Str) := do
  let s1 ← eatLit (toStr "oracle") s
  let s2 ← eatWs1 s1
  let (nm, s3) ← eatKeyQuoted "name=" s2
  let s4 ← eatWs1 s3
  let (res, s5) ← eatKeyQuoted "result=" s4
  let s6 ← eatWs1 s5
  let s7 ← eatLit (toStr "roll=") s6
  let (rl, s8) ← eatDigits1 s7
  pure ((nm, res, rl), s8)

/-- `content.matchAll(...)` for the oracle-group oracle pattern. -/
def scanGroupOraclesF : Nat → Str → List (Str × Str × Str)
  | 0, _ => []
  | _, [] => []
  | fuel + 1, s@(_ :: t) =>
    match matchGroupOracleAt s with
    | some (m, rest) => m :: scanGroupOraclesF fuel rest
    | none => scanGroupOraclesF fuel t

/-- All oracle matches of an oracle-group block. -/
def scanGroupOracles (s : Str) : List (Str × Str × Str) := scanGroupOraclesF s.length s

/-- Anchored matcher for `add\s+(-?\d+)(?:\s+"([^"]+)")?`, returning the
signed amount capture and the optional reason capture. -/
def matchAddSimpleAt (s : Str) : Option (Str × Option Str) := do
  let s1 ← eatLit (toStr "add") s
  let s2 ← eatWs1 s1
  let negLen : Nat := match s2 with | '-' :: _ => 1 | _ => 0
  let (ds, s4) ← eatDigits1 (s2.drop negLen)
  let amt := s2.take negLen ++ ds
  let reason : Option Str :=
    match eatWs1 s4 with
    | some s5 =>
      match eatQuoted1 s5 with
      | some (v, _) => some v
      | none => none
    | none => none
  pure (amt, reason)

/-- Case-insensitive match of a dot-wildcard pattern anchored at one
position: pattern characters are literal lowercase letters except `.`,
which matches any character. -/
def dotPatAt : Str → Str → Bool
  | [], _ => true
  | _ :: _, [] => false
  | p :: ps, c :: cs => (p = '.' || jsToLower c = p) && dotPatAt ps cs

/-- `/pat/i.test(s)` for one dot-wildcard alternative. -/
def containsDotPat (s pat : Str) : Bool :=
  if dotPatAt pat s then true
  else
    match s with
    | [] => false
    | _ :: t => containsDotPat t pat

/-- Strip a literal prefix when present (`replace(/^lit/, "")`). -/
def stripPre (p s : Str) : Str :=
  if p.isPrefixOf s then s.drop p.length else s

/-- Strip a literal suffix when present (`replace(/lit$/, "")`). -/
def stripSuf (p s : Str) : Str :=
  if p.isSuffixOf s then s.take (s.length - p.length) else s

/-- `parseMoveBlock(content)`. -/
def parseMoveBlock (content : Str) : Str :=
  let nameMatch := findAtPos matchMoveNameAt content
  let rollMatch := findAtPos matchMoveRollAt content
  match nameMatch with
  | none =>
    toStr "<p class=\"error\">Could not parse move: " ++
      escapeHtml (content.take 50) ++ toStr "</p>"
  | some fullName =>
    let name := stripMdLink fullName
    match rollMatch with
    | none =>
      toStr "<details class=\"move\" open>\n      <summary><span class=\"move-name\">" ++
      escapeHtml name ++ toStr "</span></summary>\n    </details>"
    | some (stat, action, adds, statValue, vs1, vs2) =>
      let score : Int := min 10 (action + statValue + adds)
      let outcome := getOutcome (.num score) (.num vs1) (.num vs2)
      let mtch : Bool := decide (vs1 = vs2)
      toStr "<details class=\"move " ++ outcome ++
      (if mtch then toStr " match" else []) ++
      toStr "\" open>\n    <summary><span class=\"move-name\">" ++ escapeHtml name ++
      toStr "</span></summary>\n    <dl class=\"roll " ++ outcome ++
      (if mtch then toStr " match" else []) ++
      toStr "\">\n      <dt>Roll</dt>\n      <dd class=\"action-die\">" ++ intToStr action ++
      toStr "</dd>\n      <dd class=\"stat\">" ++ intToStr statValue ++
      toStr "</dd>\n      <dd class=\"stat-name\">" ++ escapeHtml stat ++
      toStr "</dd>\n      <dd class=\"adds\">" ++ intToStr adds ++
      toStr "</dd>\n      <dd class=\"score\">" ++ intToStr score ++
      toStr "</dd>\n      <dd class=\"challenge-die vs1\">" ++ intToStr vs1 ++
      toStr "</dd>\n      <dd class=\"challenge-die vs2\">" ++ intToStr vs2 ++
      toStr "</dd>\n      <dd class=\"outcome\">" ++ outcome ++
      toStr "</dd>\n    </dl>\n  </details>"

/-- `parseRollBlock(line)`. -/
def parseRollBlock (line : Str) : Str :=
  let props := parseProps line
  let statName :=
    jsValToStr (propOr props (toStr "stat-name")
      (propOr props (toStr "stat_name") (.str [])))
  let action := propOrNum props (toStr "action") 0
  let stat := propOrNum props (toStr "stat") 0
  let adds := propOrNum props (toStr "adds") 0
  let vs1 := propOrNum props (toStr "vs1") 0
  let vs2 := propOrNum props (toStr "vs2") 0
  let score := JsNum.minJs (.num 10) (JsNum.add (JsNum.add action stat) adds)
  let outcome := getOutcome score vs1 vs2
  let mtch := JsNum.eqJs vs1 vs2
  toStr "<dl class=\"roll " ++ outcome ++ (if mtch then toStr " match" else []) ++
  toStr "\">\n    <dt>Roll</dt>\n    <dd class=\"action-die\">" ++ jsNumToStr action ++
  toStr "</dd>\n    <dd class=\"stat\">" ++ jsNumToStr stat ++ toStr "</dd>\n    " ++
  (if statName = [] then []
   else toStr "<dd class=\"stat-name\">" ++ escapeHtml statName ++ toStr "</dd>") ++
  toStr "\n    <dd class=\"adds\">" ++ jsNumToStr adds ++
  toStr "</dd>\n    <dd class=\"score\">" ++ jsNumToStr score ++
  toStr "</dd>\n    <dd class=\"challenge-die vs1\">" ++ jsNumToStr vs1 ++
  toStr "</dd>\n    <dd class=\"challenge-die vs2\">" ++ jsNumToStr vs2 ++
  toStr "</dd>\n    <dd class=\"outcome\">" ++ outcome ++ toStr "</dd>\n  </dl>"

/-- `parseProgressRollBlock(line)`. -/
def parseProgressRollBlock (line : Str) : Str :=
  let props := parseProps line
  let trackName := propOrStr props (toStr "name") []
  let score := propOrNum props (toStr "score") 0
  let vs1 := propOrNum props (toStr "vs1") 0
  let vs2 := propOrNum props (toStr "vs2") 0
  let outcome := getOutcome score vs1 vs2
  let mtch := JsNum.eqJs vs1 vs2
  toStr "<dl class=\"roll progress " ++ outcome ++
  (if mtch then toStr " match" else []) ++
  toStr "\">\n    <dt>Progress Roll</dt>\n    <dd class=\"track-name\">" ++
  escapeHtml trackName ++
  toStr "</dd>\n    <dd class=\"progress-score\">" ++ jsNumToStr score ++
  toStr "</dd>\n    <dd class=\"challenge-die vs1\">" ++ jsNumToStr vs1 ++
  toStr "</dd>\n    <dd class=\"challenge-die vs2\">" ++ jsNumToStr vs2 ++
  toStr "</dd>\n    <dd class=\"outcome\">" ++ outcome ++ toStr "</dd>\n  </dl>"

/-- `parseOracleBlock(line)` (the simple one-line form). -/
def parseOracleBlock (line : Str) : Str :=
  let props := parseProps line
  let name := stripMdLink (propOrStr props (toStr "name") [])
  let result := propOrStr props (toStr "result") []
  let roll := propOr props (toStr "roll") (.str [])
  let cursed := getProp props (toStr "cursed")
  let replaced := getProp props (toStr "replaced")
  toStr "<div class=\"oracle-container\">\n    <dl class=\"oracle\">\n      <dt>Oracle</dt>\n      <dd class=\"name\">" ++
  escapeHtml name ++
  toStr "</dd>\n      <dd class=\"roll\">" ++ jsValToStr roll ++
  toStr "</dd>\n      <dd class=\"result\">" ++ escapeHtml result ++
  toStr "</dd>\n      " ++
  (match cursed with
   | some v =>
     toStr "<dd class=\"cursed\" data-value=\"" ++ jsValToStr v ++ toStr "\">" ++
     jsValToStr v ++ toStr "</dd>"
   | none => []) ++
  toStr "\n      " ++
  (match replaced with
   | some v =>
     toStr "<dd class=\"replaced\" data-value=\"" ++ jsValToStr v ++ toStr "\">" ++
     jsValToStr v ++ toStr "</dd>"
   | none => []) ++
  toStr "\n    </dl>\n  </div>"

/-- `parseOracleWithNested(content)`: oracle header with a brace-delimited
body scanned line-by-line for nested one-line oracles. -/
def parseOracleWithNested (content : Str) : Str :=
  let firstLine := (splitOnChar (Char.ofNat 10) content).getD 0 []
  let props := parseProps firstLine
  let name := stripMdLink (propOrStr props (toStr "name") [])
  let result := propOrStr props (toStr "result") []
  let roll := propOr props (toStr "roll") (.str [])
  let nestedHtml : Str :=
    match idxOfChar content braceOpen, lastIdxOfChar content braceClose with
    | some bs, some be =>
      let inner := trimStr (substringJS content (bs + 1) be)
      if inner = [] then []
      else
        let nestedLines := splitOnChar (Char.ofNat 10) inner
        let nestedResults := nestedLines.filterMap (fun nestedLine =>
          let trimmed := trimStr nestedLine
          if (toStr "oracle ").isPrefixOf trimmed then some (parseOracleBlock trimmed)
          else none)
        if nestedResults = [] then []
        else toStr "<blockquote>" ++ nestedResults.flatten ++ toStr "</blockquote>"
    | _, _ => []
  toStr "<div class=\"oracle-container\">\n    <dl class=\"oracle\">\n      <dt>Oracle</dt>\n      <dd class=\"name\">" ++
  escapeHtml name ++
  toStr "</dd>\n      <dd class=\"roll\">" ++ jsValToStr roll ++
  toStr "</dd>\n      <dd class=\"result\">" ++ escapeHtml result ++
  toStr "</dd>\n    </dl>\n    " ++ nestedHtml ++ toStr "\n  </div>"

/-- `parseOracleGroupBlock(content)`: one repeated-match scan over the whole
block. -/
def parseOracleGroupBlock (content : Str) : Str :=
  let nameMatch := findAtPos matchGroupNameAt content
  let name := nameMatch.getD (toStr "Oracle Group")
  let oracles := (scanGroupOracles content).map (fun m =>
    let oracleName := stripMdLink m.1
    let result := m.2.1
    let roll := m.2.2
    toStr "<div class=\"oracle-container\">\n      <dl class=\"oracle\">\n        <dt>Oracle</dt>\n        <dd class=\"name\">" ++
    escapeHtml oracleName ++
    toStr "</dd>\n        <dd class=\"roll\">" ++ roll ++
    toStr "</dd>\n        <dd class=\"result\">" ++ escapeHtml result ++
    toStr "</dd>\n      </dl>\n    </div>")
  toStr "<article class=\"oracle-group\">\n    <span class=\"group-name\">" ++
  escapeHtml name ++
  toStr "</span>\n    <blockquote>" ++ oracles.flatten ++
  toStr "</blockquote>\n  </article>"

/-- `parseMeterBlock(line)`. -/
def parseMeterBlock (line : Str) : Str :=
  let props := parseProps line
  let name := propOrStr props (toStr "name") []
  let fromV := propOrNum props (toStr "from") 0
  let toV := propOrNum props (toStr "to") 0
  let delta := JsNum.sub toV fromV
  let deltaClass := if JsNum.ltJs delta (.num 0) then toStr "negative" else toStr "positive"
  toStr "<dl class=\"meter\">\n    <dt>Meter</dt>\n    <dd class=\"meter-name\">" ++
  escapeHtml name ++
  toStr "</dd>\n    <dd class=\"delta " ++ deltaClass ++ toStr "\">" ++
  jsNumToStr (JsNum.absJs delta) ++
  toStr "</dd>\n    <dd class=\"from\">" ++ jsNumToStr fromV ++
  toStr "</dd>\n    <dd class=\"to\">" ++ jsNumToStr toV ++ toStr "</dd>\n  </dl>"

/-- `parseBurnBlock(line)`. -/
def parseBurnBlock (line : Str) : Str :=
  let props := parseProps line
  let fromV := propOrNum props (toStr "from") 0
  let toV := propOrNum props (toStr "to") 0
  toStr "<dl class=\"burn\">\n    <dt>Burn</dt>\n    <dd class=\"from\">" ++
  jsNumToStr fromV ++
  toStr "</dd>\n    <dd class=\"to\">" ++ jsNumToStr toV ++ toStr "</dd>\n  </dl>"

/-- `parseXpBlock(line)`. -/
def parseXpBlock (line : Str) : Str :=
  let props := parseProps line
  let fromV := propOrNum props (toStr "from") 0
  let toV := propOrNum props (toStr "to") 0
  let delta := JsNum.sub toV fromV
  let deltaClass := if JsNum.ltJs delta (.num 0) then toStr "negative" else toStr "positive"
  toStr "<dl class=\"xp\">\n    <dt>XP</dt>\n    <dd class=\"delta " ++ deltaClass ++
  toStr "\">" ++ jsNumToStr (JsNum.absJs delta) ++
  toStr "</dd>\n    <dd class=\"from\">" ++ jsNumToStr fromV ++
  toStr "</dd>\n    <dd class=\"to\">" ++ jsNumToStr toV ++ toStr "</dd>\n  </dl>"

/-- `parseTrackBlock(line)`: status form versus box/tick change form. -/
def parseTrackBlock (line : Str) : Str :=
  let props := parseProps line
  let nameMatch := findAtPos matchWikilinkAt line
  let statusMatch := findAtPos matchStatusAt line
  let path := match nameMatch with | some nm => nm.1 | none => []
  let displayName :=
    match nameMatch with
    | some nm => nm.2
    | none => propOrStr props (toStr "name") []
  let status : Option JsVal :=
    match statusMatch with
    | some s => some (.str s)
    | none => getProp props (toStr "status")
  let slug := pathToSlug path
  if (match status with | some v => jsValTruthy v | none => false) then
    let st := jsValToStr (status.getD (.str []))
    toStr "<dl class=\"track-status\">\n      <dt>Track</dt>\n      <dd class=\"track-name\"><a href=\"" ++
    slug ++ toStr "\">" ++ escapeHtml displayName ++
    toStr "</a></dd>\n      <dd class=\"track-status\" data-value=\"" ++ st ++
    toStr "\">" ++ st ++ toStr "</dd>\n    </dl>"
  else
    let fromBoxes := propOrNum props (toStr "from-boxes") 0
    let fromTicks := propOrNum props (toStr "from-ticks") 0
    let toBoxes := propOrNum props (toStr "to-boxes") 0
    let toTicks := propOrNum props (toStr "to-ticks") 0
    toStr "<dl class=\"track\">\n    <dt>Track</dt>\n    <dd class=\"track-name\"><a href=\"" ++
    slug ++ toStr "\">" ++ escapeHtml displayName ++
    toStr "</a></dd>\n    <dd class=\"from-boxes\">" ++ jsNumToStr fromBoxes ++
    toStr "</dd>\n    <dd class=\"from-ticks\">" ++ jsNumToStr fromTicks ++
    toStr "</dd>\n    <dd class=\"to-boxes\">" ++ jsNumToStr toBoxes ++
    toStr "</dd>\n    <dd class=\"to-ticks\">" ++ jsNumToStr toTicks ++
    toStr "</dd>\n  </dl>"

/-- The `ticksPerStep` rank table of `parseProgressBlock`. -/
def ticksPerStep : List (Str × ℚ) :=
  [(toStr "troublesome", 12), (toStr "dangerous", 8), (toStr "formidable", 4),
   (toStr "extreme", 2), (toStr "epic", 1)]

/-- `ticksPerStep[rank.toLowerCase()] || 4`. -/
def rankTicksOr4 (rank : Str) : ℚ :=
  match ticksPerStep.lookup (lowerStr rank) with
  | none => 4
  | some q => if q = 0 then 4 else q

/-- `parseProgressBlock(line)`. -/
def parseProgressBlock (line : Str) : Str :=
  let props := parseProps line
  let nameMatch := findAtPos matchWikilinkAt line
  let slug :=
    match nameMatch with
    | some nm => pathToSlug nm.1
    | none => toStr "#"
  let trackName :=
    match nameMatch with
    | some nm => nm.2
    | none => propOrStr props (toStr "name") []
  let steps := propOrNum props (toStr "steps") 1
  let rank :=
    jsValToStr (propOr props (toStr "rank") (propOr props (toStr "level") (.str [])))
  let fromV := propOrNum props (toStr "from") 0
  let fromBoxes := JsNum.floorJs (JsNum.div fromV (.num 4))
  let fromTicks := JsNum.jsMod fromV (.num 4)
  let ticksToAdd := JsNum.mul (.num (rankTicksOr4 rank)) steps
  let newProgress := JsNum.add fromV ticksToAdd
  let toBoxes := JsNum.floorJs (JsNum.div newProgress (.num 4))
  let toTicks := JsNum.jsMod newProgress (.num 4)
  let stepsClass := if JsNum.ltJs steps (.num 0) then toStr "negative" else toStr "positive"
  toStr "<dl class=\"progress\">\n    <dt>Progress</dt>\n    <dd class=\"track-name\"><a href=\"" ++
  slug ++ toStr "\">" ++ escapeHtml trackName ++
  toStr "</a></dd>\n    <dd class=\"steps " ++ stepsClass ++ toStr "\">" ++
  jsNumToStr (JsNum.absJs steps) ++
  toStr "</dd>\n    <dd class=\"rank\">" ++ escapeHtml rank ++
  toStr "</dd>\n    <dd class=\"from-boxes\">" ++ jsNumToStr fromBoxes ++
  toStr "</dd>\n    <dd class=\"from-ticks\">" ++ jsNumToStr fromTicks ++
  toStr "</dd>\n    <dd class=\"to-boxes\">" ++ jsNumToStr toBoxes ++
  toStr "</dd>\n    <dd class=\"to-ticks\">" ++ jsNumToStr toTicks ++
  toStr "</dd>\n  </dl>"

/-- `parseClockBlock(line)`: status form versus delta form; the delta form
repeats the `out-of` value twice. -/
def parseClockBlock (line : Str) : Str :=
  let props := parseProps line
  let name := propOrStr props (toStr "name") []
  let status := getProp props (toStr "status")
  if (match status with | some v => jsValTruthy v | none => false) then
    let st := jsValToStr (status.getD (.str []))
    toStr "<dl class=\"clock-status\">\n      <dt>Clock</dt>\n      <dd class=\"clock-name\">" ++
    escapeHtml name ++
    toStr "</dd>\n      <dd class=\"clock-status\" data-value=\"" ++ st ++
    toStr "\">" ++ st ++ toStr "</dd>\n    </dl>"
  else
    let fromV := propOrNum props (toStr "from") 0
    let toV := propOrNum props (toStr "to") 0
    let outOf :=
      coerceNum (propOr props (toStr "out-of") (propOr props (toStr "segments") (.num 0)))
    toStr "<dl class=\"clock\">\n    <dt>Clock</dt>\n    <dd class=\"clock-name\">" ++
    escapeHtml name ++
    toStr "</dd>\n    <dd class=\"from\">" ++ jsNumToStr fromV ++
    toStr "</dd>\n    <dd class=\"out-of\">" ++ jsNumToStr outOf ++
    toStr "</dd>\n    <dd class=\"to\">" ++ jsNumToStr toV ++
    toStr "</dd>\n    <dd class=\"out-of\">" ++ jsNumToStr outOf ++
    toStr "</dd>\n  </dl>"

/-- `parseAssetBlock(line)`. -/
def parseAssetBlock (line : Str) : Str :=
  let props := parseProps line
  let name := propOrStr props (toStr "name") []
  let status := propOrStr props (toStr "status") []
  let ability := getProp props (toStr "ability")
  toStr "<dl class=\"asset\">\n    <dt>Asset</dt>\n    <dd class=\"asset-name\">" ++
  escapeHtml name ++
  toStr "</dd>\n    <dd class=\"asset-status\" data-value=\"" ++ status ++
  toStr "\">" ++ status ++ toStr "</dd>\n    " ++
  (match ability with
   | some v => toStr "<dd class=\"asset-ability\">" ++ jsValToStr v ++ toStr "</dd>"
   | none => []) ++
  toStr "\n  </dl>"

/-- `parseImpactBlock(line)`: `String(marked)` of an absent prop is the
literal text `undefined`. -/
def parseImpactBlock (line : Str) : Str :=
  let props := parseProps line
  let marked := getProp props (toStr "marked")
  let markedStr :=
    lowerStr (match marked with | some v => jsValToStr v | none => toStr "undefined")
  toStr "<dl class=\"impact\">\n    <dt>Impact</dt>\n    <dd class=\"impact-name\">" ++
  escapeHtml (propOrStr props (toStr "name") []) ++
  toStr "</dd>\n    <dd class=\"impact-marked\" data-value=\"" ++ markedStr ++
  toStr "\">" ++ markedStr ++ toStr "</dd>\n  </dl>"

/-- The `getInitClass` helper of `parseInitiativeBlock`
(`/bad.spot|no.initiative/i` etc.; `.` is the regex wildcard). -/
def getInitClass (init : Str) : Str :=
  if containsDotPat init (toStr "bad.spot") ||
     containsDotPat init (toStr "no.initiative") then toStr "no-initiative"
  else if containsDotPat init (toStr "in.control") ||
     containsDotPat init (toStr "initiative") then toStr "has-initiative"
  else toStr "out-of-combat"

/-- The `getInitText` helper of `parseInitiativeBlock`. -/
def getInitText (init : Str) : Str :=
  if containsDotPat init (toStr "bad.spot") then toStr "In a bad spot"
  else if containsDotPat init (toStr "no.initiative") then toStr "No initiative"
  else if containsDotPat init (toStr "in.control") then toStr "In control"
  else if containsDotPat init (toStr "initiative") then toStr "Has initiative"
  else toStr "Out of combat"

/-- `parseInitiativeBlock(line)`. -/
def parseInitiativeBlock (line : Str) : Str :=
  let props := parseProps line
  let fromV := propOrStr props (toStr "from") (toStr "out-of-combat")
  let toV := propOrStr props (toStr "to") (toStr "out-of-combat")
  toStr "<dl class=\"initiative\">\n    <dt>Initiative</dt>\n    <dd class=\"from " ++
  getInitClass fromV ++ toStr "\">" ++ getInitText fromV ++
  toStr "</dd>\n    <dd class=\"to " ++ getInitClass toV ++ toStr "\">" ++
  getInitText toV ++ toStr "</dd>\n  </dl>"

/-- `parseRerollBlock(line)`: one from/to pair per die present in the
props; old values default to the literal `?`. -/
def parseRerollBlock (line : Str) : Str :=
  let props := parseProps line
  let action := getProp props (toStr "action")
  let vs1 := getProp props (toStr "vs1")
  let vs2 := getProp props (toStr "vs2")
  toStr "<dl class=\"reroll\"><dt>Reroll</dt>" ++
  (match action with
   | some a =>
     toStr "<dd class=\"action-die from\">" ++
     jsValToStr (propOr props (toStr "old-action") (.str (toStr "?"))) ++
     toStr "</dd>" ++
     toStr "<dd class=\"action-die to\">" ++ jsValToStr a ++ toStr "</dd>"
   | none => []) ++
  (match vs1 with
   | some a =>
     toStr "<dd class=\"challenge-die from vs1\">" ++
     jsValToStr (propOr props (toStr "old-vs1") (.str (toStr "?"))) ++
     toStr "</dd>" ++
     toStr "<dd class=\"challenge-die to vs1\">" ++ jsValToStr a ++ toStr "</dd>"
   | none => []) ++
  (match vs2 with
   | some a =>
     toStr "<dd class=\"challenge-die from vs2\">" ++
     jsValToStr (propOr props (toStr "old-vs2") (.str (toStr "?"))) ++
     toStr "</dd>" ++
     toStr "<dd class=\"challenge-die to vs2\">" ++ jsValToStr a ++ toStr "</dd>"
   | none => []) ++
  toStr "</dl>"

/-- `parseAddBlock(line)`: prop style first; a zero amount also tries the
positional `add N "reason"` form. -/
def parseAddBlock (line : Str) : Str :=
  let props := parseProps line
  let amount0 := propOrNum props (toStr "amount") 0
  let from0 := propOrStr props (toStr "from") []
  let af : JsNum × Str :=
    if JsNum.eqJs amount0 (.num 0) then
      match findAtPos matchAddSimpleAt line with
      | some (amt, rsn) => (.num ((parseIntOr amt 0 : Int) : ℚ), jsOrStr (rsn.getD []) [])
      | none => (amount0, from0)
    else (amount0, from0)
  let amount := af.1
  let fromV := af.2
  let amountClass := if JsNum.ltJs amount (.num 0) then toStr "negative" else toStr "positive"
  toStr "<dl class=\"add\">\n    <dt>Add</dt>\n    <dd class=\"amount " ++ amountClass ++
  toStr "\">" ++ jsNumToStr (JsNum.absJs amount) ++ toStr "</dd>\n    " ++
  (if fromV = [] then []
   else toStr "<dd class=\"from\">" ++ escapeHtml fromV ++ toStr "</dd>") ++
  toStr "\n  </dl>"

/-- `parseDiceExprBlock(line)`. -/
def parseDiceExprBlock (line : Str) : Str :=
  let props := parseProps line
  let expr := propOrStr props (toStr "expr") []
  let result := propOr props (toStr "result") (.str [])
  toStr "<dl class=\"dice-expr\">\n    <dt>Dice</dt>\n    <dd class=\"expr\">" ++
  escapeHtml expr ++
  toStr "</dd>\n    <dd class=\"value\">" ++ jsValToStr result ++ toStr "</dd>\n  </dl>"

/-- `parseDetailBlock(line)`: strip the leading `- `. -/
def parseDetailBlock (line : Str) : Str :=
  let text := trimStr (line.drop 2)
  toStr "<aside class=\"detail\">\n    <p>" ++ escapeHtml text ++ toStr "</p>\n  </aside>"

/-- Net brace count of one line: occurrences of `{` minus occurrences of
`}`. -/
def braceDelta (l : Str) : Int :=
  ((l.count braceOpen : Nat) : Int) - ((l.count braceClose : Nat) : Int)

/-- The `while` loop of `collectBlock`: while the running brace count is
positive and a further line exists, consume the next line.  Returns the
consumed lines and their number. -/
def collectBlockAux (lines : List Str) (i : Nat) (bc : Int) : List Str × Nat :=
  if h : 0 < bc ∧ i + 1 < lines.length then
    let nxt := lines.getD (i + 1) []
    let r := collectBlockAux lines (i + 1) (bc + braceDelta nxt)
    (nxt :: r.1, r.2 + 1)
  else ([], 0)
termination_by lines.length - i
decreasing_by omega

/-- `collectBlock(lines, startIndex)`: the collected lines joined with
newlines, and the end index. -/
def collectBlock (lines : List Str) (startIndex : Nat) : Str × Nat :=
  let first := lines.getD startIndex []
  let r := collectBlockAux lines startIndex (braceDelta first)
  (joinNl (first :: r.1), startIndex + r.2)

/-- The brace-delimited inner text that `parseActorBlock` hands to the
recursive block parse: the characters between the first `{` (exclusive) and
the last `}` via `substring`, trimmed; empty when either brace is missing.
When the first `{` follows the last `}`, `substring` swaps its arguments,
so the extracted text then includes both braces. -/
def actorInner (content : Str) : Str :=
  match idxOfChar content braceOpen, lastIdxOfChar content braceClose with
  | some bs, some be => trimStr (substringJS content (bs + 1) be)
  | _, _ => []

/-- `parseActorBlock(content)` with the recursive call to
`parseIronVaultBlock` abstracted as `render`; the source's mutual recursion
is realised through the fuel of `parseIronVaultBlockF`. -/
def parseActorBlockAux (render : Str → Str) (content : Str) : Str :=
  let nameMatch := findAtPos matchActorNameAt content
  let name := nameMatch.getD (toStr "Actor")
  let linkMatch := findAtPos matchDoubleLinkAt name
  let slug := match linkMatch with | some lm => pathToSlug lm.1 | none => []
  let displayName := match linkMatch with | some lm => lm.2 | none => name
  let inner := actorInner content
  let innerContent : Str :=
    if inner = [] then []
    else
      stripSuf (toStr "</article>")
        (stripPre (toStr "<article class=\"iron-vault-mechanics\">") (render inner))
  let nameHtml :=
    if slug = [] then escapeHtml displayName
    else toStr "<a href=\"" ++ slug ++ toStr "\">" ++ escapeHtml displayName ++ toStr "</a>"
  toStr "<section class=\"actor\">\n    <header><span>" ++ nameHtml ++
  toStr "</span></header>\n    <div>" ++ innerContent ++ toStr "</div>\n  </section>"

/-- One iteration of the scanning loop of `parseIronVaultBlock`: dispatch
on the leading keyword of the trimmed current line.  Returns the emitted
fragment (none for unrecognized lines, which are skipped) and the number of
extra lines a brace-delimited form consumed beyond the current one.
`actorRender` performs the recursive parse of an actor block. -/
def blockStep (actorRender : Str → Str) (lines : List Str) (i : Nat) :
    Option Str × Nat :=
  let line := trimStr (lines.getD i [])
  if (toStr "move ").isPrefixOf line then
    let cb := collectBlock lines i
    (some (parseMoveBlock cb.1), cb.2 - i)
  else if (toStr "oracle-group ").isPrefixOf line then
    let cb := collectBlock lines i
    (some (parseOracleGroupBlock cb.1), cb.2 - i)
  else if (toStr "oracle ").isPrefixOf line then
    if containsSubstr line [braceOpen] then
      let cb := collectBlock lines i
      (some (parseOracleWithNested cb.1), cb.2 - i)
    else (some (parseOracleBlock line), 0)
  else if (toStr "roll ").isPrefixOf line then (some (parseRollBlock line), 0)
  else if (toStr "progress-roll ").isPrefixOf line then
    (some (parseProgressRollBlock line), 0)
  else if (toStr "meter ").isPrefixOf line then (some (parseMeterBlock line), 0)
  else if (toStr "burn ").isPrefixOf line then (some (parseBurnBlock line), 0)
  else if (toStr "xp ").isPrefixOf line then (some (parseXpBlock line), 0)
  else if (toStr "track ").isPrefixOf line then (some (parseTrackBlock line), 0)
  else if (toStr "progress ").isPrefixOf line then (some (parseProgressBlock line), 0)
  else if (toStr "clock ").isPrefixOf line then (some (parseClockBlock line), 0)
  else if (toStr "asset ").isPrefixOf line then (some (parseAssetBlock line), 0)
  else if (toStr "impact ").isPrefixOf line then (some (parseImpactBlock line), 0)
  else if (toStr "initiative ").isPrefixOf line ||
      (toStr "position ").isPrefixOf line then
    (some (parseInitiativeBlock line), 0)
  else if (toStr "actor ").isPrefixOf line then
    let cb := collectBlock lines i
    (some (actorRender cb.1), cb.2 - i)
  else if (toStr "reroll ").isPrefixOf line then (some (parseRerollBlock line), 0)
  else if (toStr "add ").isPrefixOf line then (some (parseAddBlock line), 0)
  else if (toStr "dice-expr ").isPrefixOf line then (some (parseDiceExprBlock line), 0)
  else if (toStr "- ").isPrefixOf line then (some (parseDetailBlock line), 0)
  else (none, 0)

/-- The scanning loop of `parseIronVaultBlock`: one cursor over the lines,
strictly advancing each iteration (a multi-line form advances past its
collected block, whose end index is `i + extra`). -/
def blockLoop (actorRender : Str → Str) (lines : List Str) (i : Nat) : List Str :=
  if _hlt : i < lines.length then
    let st := blockStep actorRender lines i
    match st.1 with
    | some r => r :: blockLoop actorRender lines (i + st.2 + 1)
    | none => blockLoop actorRender lines (i + st.2 + 1)
  else []
termination_by lines.length - i
decreasing_by all_goals omega

/-- Fuel-indexed `parseIronVaultBlock`: split the trimmed content into
lines, run the scanning loop, wrap in the article element.  The fuel only
bounds the `actor` recursion depth; every nested actor body is strictly
shorter than its enclosing block, so `content.length + 1` is always
enough (proved below). -/
def parseIronVaultBlockF : Nat → Str → Str
  | 0, _ => []
  | fuel + 1, content =>
    let lines := splitOnChar (Char.ofNat 10) (trimStr content)
    let results := blockLoop (parseActorBlockAux (parseIronVaultBlockF fuel)) lines 0
    toStr "<article class=\"iron-vault-mechanics\">" ++ results.flatten ++
    toStr "</article>"

/-- `parseActorBlock(content)` at a given recursion budget. -/
def parseActorBlockF (fuel : Nat) : Str → Str :=
  parseActorBlockAux (parseIronVaultBlockF fuel)

/-- `parseIronVaultBlock(content)`. -/
def parseIronVaultBlock (content : Str) : Str :=
  parseIronVaultBlockF (content.length + 1) content

end IVBlocks

/-!
### Helper lemmas
-/

theorem jsOrStr_empty (s : Str) : jsOrStr s [] = s := by
  by_cases h : s = [] <;> simp [jsOrStr, h]

theorem splitOnChar_ne_nil (c : Char) (s : Str) : splitOnChar c s ≠ [] := by
  induction s with
  | nil => simp [splitOnChar]
  | cons x xs ih =>
    simp only [splitOnChar]
    split
    · simp
    · cases h : splitOnChar c xs with
      | nil => simp
      | cons h t => simp

theorem splitOnChar_not_mem (c : Char) (s : Str) (h : c ∉ s) : splitOnChar c s = [s] := by
  induction s with
  | nil => rfl
  | cons x xs ih =>
    have hx : ¬ x = c := by rintro rfl; exact h (List.mem_cons_self x xs)
    have hxs : c ∉ xs := fun hm => h (List.mem_cons_of_mem _ hm)
    simp [splitOnChar, hx, ih hxs]

theorem splitOnChar_append_cons (c : Char) (a r : Str) (h : c ∉ a) :
    splitOnChar c (a ++ c :: r) = a :: splitOnChar c r := by
  induction a with
  | nil => simp [splitOnChar]
  | cons x xs ih =>
    have hx : ¬ x = c := by rintro rfl; exact h (List.mem_cons_self x xs)
    have hxs : c ∉ xs := fun hm => h (List.mem_cons_of_mem _ hm)
    simp [splitOnChar, hx, ih hxs]

theorem splitAtFirstChar_eq_none (c : Char) (s : Str) :
    splitAtFirstChar c s = none ↔ c ∉ s := by
  induction s with
  | nil => simp [splitAtFirstChar]
  | cons x xs ih =>
    simp only [splitAtFirstChar]
    by_cases hx : x = c
    · subst hx; simp
    · cases h : splitAtFirstChar c xs with
      | none =>
        simp only [if_neg hx, h, List.mem_cons, not_or]
        constructor
        · intro _
          exact ⟨fun hc => hx hc.symm, ih.mp h⟩
        · intro _; trivial
      | some p =>
        obtain ⟨a, b⟩ := p
        simp only [if_neg hx, h, List.mem_cons, not_or]
        constructor
        · intro hcontra; cases hcontra
        · rintro ⟨-, hnot⟩
          rw [ih.mpr hnot] at h
          cases h

/-- Dispatch computations of `parseInlineMechanic` on each concrete kind tag
with an arbitrary remainder reduce definitionally. -/
theorem parse_dispatch_oracle (rest : Str) (fbn : Option IVInline.FilesMap) :
    IVInline.parseInlineMechanic (toStr "iv-oracle:" ++ rest) fbn =
      some (IVInline.renderOracle rest) := rfl

/-- Dispatch of `iv-clock-advance`. -/
theorem parse_dispatch_clock_advance (rest : Str) (fbn : Option IVInline.FilesMap) :
    IVInline.parseInlineMechanic (toStr "iv-clock-advance:" ++ rest) fbn =
      some (IVInline.renderClockAdvance rest fbn) := rfl

/-- Dispatch of `iv-track-advance`. -/
theorem parse_dispatch_track_advance (rest : Str) (fbn : Option IVInline.FilesMap) :
    IVInline.parseInlineMechanic (toStr "iv-track-advance:" ++ rest) fbn =
      some (IVInline.renderTrackAdvance rest fbn) := rfl

/-- Dispatch of `iv-meter`. -/
theorem parse_dispatch_meter (rest : Str) (fbn : Option IVInline.FilesMap) :
    IVInline.parseInlineMechanic (toStr "iv-meter:" ++ rest) fbn =
      some (IVInline.renderMeter rest) := rfl

/-- Dispatch of `iv-initiative`. -/
theorem parse_dispatch_initiative (rest : Str) (fbn : Option IVInline.FilesMap) :
    IVInline.parseInlineMechanic (toStr "iv-initiative:" ++ rest) fbn =
      some (IVInline.renderInitiative rest) := rfl

/-- Integer characterization of both `getOutcome` copies. -/
theorem getOutcome_int (s v1 v2 : ℤ) :
    IVInline.getOutcome (.num s) (.num v1) (.num v2) =
      (if v1 < s ∧ v2 < s then toStr "strong-hit"
       else if v1 < s ∨ v2 < s then toStr "weak-hit" else toStr "miss") ∧
    IVBlocks.getOutcome (.num s) (.num v1) (.num v2) =
      IVInline.getOutcome (.num s) (.num v1) (.num v2) := by
  have h1 : ((v1 : ℚ) < (s : ℚ)) ↔ v1 < s := by exact_mod_cast Iff.rfl
  have h2 : ((v2 : ℚ) < (s : ℚ)) ↔ v2 < s := by exact_mod_cast Iff.rfl
  constructor
  · simp only [IVInline.getOutcome, JsNum.gtJs, JsNum.ltJs]
    by_cases c1 : v1 < s <;> by_cases c2 : v2 < s <;>
      simp [h1, h2, c1, c2]
  · rfl

/-- C1: the outcome classifier (present identically in the inline and block
parsers) returns exactly one of the three tiers; it is `strong-hit` iff
both challenge values are exceeded, `miss` iff neither is, `weak-hit` iff
exactly one is; a tie counts as not exceeding. -/
theorem claim1_outcome_classification (s v1 v2 : ℤ) :
    (IVBlocks.getOutcome (.num s) (.num v1) (.num v2) =
      IVInline.getOutcome (.num s) (.num v1) (.num v2)) ∧
    (IVInline.getOutcome (.num s) (.num v1) (.num v2) = toStr "strong-hit" ∨
     IVInline.getOutcome (.num s) (.num v1) (.num v2) = toStr "weak-hit" ∨
     IVInline.getOutcome (.num s) (.num v1) (.num v2) = toStr "miss") ∧
    (IVInline.getOutcome (.num s) (.num v1) (.num v2) = toStr "strong-hit" ↔
      v1 < s ∧ v2 < s) ∧
    (IVInline.getOutcome (.num s) (.num v1) (.num v2) = toStr "miss" ↔
      s ≤ v1 ∧ s ≤ v2) ∧
    (IVInline.getOutcome (.num s) (.num v1) (.num v2) = toStr "weak-hit" ↔
      ((v1 < s ∧ s ≤ v2) ∨ (v2 < s ∧ s ≤ v1))) := by
  obtain ⟨he, hb⟩ := getOutcome_int s v1 v2
  rw [hb, he]
  have d1 : toStr "strong-hit" ≠ toStr "weak-hit" := by decide
  have d2 : toStr "strong-hit" ≠ toStr "miss" := by decide
  have d3 : toStr "weak-hit" ≠ toStr "miss" := by decide
  by_cases c1 : v1 < s <;> by_cases c2 : v2 < s <;>
    simp only [c1, c2, and_self, true_and, and_true, true_or, or_true,
      if_true, if_false, and_false, false_and, or_false, false_or,
      if_pos, if_neg, ite_true, ite_false, not_true, not_false_iff] <;>
    simp [d1, d2, d3, d1.symm, d2.symm, d3.symm] <;> omega

set_option maxRecDepth 10000 in
/-- C7: `iv-move:Face Danger|edge|4|3|0|3|5` scores `min(10,4+3+0) = 7`,
classifies as strong-hit (7>3 and 7>5), has no match (3 ≠ 5); the rendered
span's score element holds the text `7`, the class list holds `strong-hit`
and the output nowhere holds `match`. -/
theorem claim7_move_scenario :
    (IVInline.parseInlineMechanic (toStr "iv-move:Face Danger|edge|4|3|0|3|5") none ≠ none) ∧
    containsSubstr
      ((IVInline.parseInlineMechanic (toStr "iv-move:Face Danger|edge|4|3|0|3|5") none).getD [])
      (toStr "<span class=\"iv-inline-score\">7</span>") = true ∧
    containsSubstr
      ((IVInline.parseInlineMechanic (toStr "iv-move:Face Danger|edge|4|3|0|3|5") none).getD [])
      (toStr "class=\"iv-inline-mechanics strong-hit\"") = true ∧
    containsSubstr
      ((IVInline.parseInlineMechanic (toStr "iv-move:Face Danger|edge|4|3|0|3|5") none).getD [])
      (toStr "match") = false ∧
    (min 10 (4 + 3 + 0) : Int) = 7 ∧
    IVInline.getOutcome (.num 7) (.num 3) (.num 5) = toStr "strong-hit" ∧
    IVInline.isMatch (.num 3) (.num 5) = false := by decide

/-- A successful first-colon split reconstructs the input. -/
theorem splitAtFirstChar_eq_some (c : Char) (s a b : Str)
    (h : splitAtFirstChar c s = some (a, b)) : s = a ++ c :: b ∧ c ∉ a := by
  induction s generalizing a b with
  | nil => simp [splitAtFirstChar] at h
  | cons x xs ih =>
    simp only [splitAtFirstChar] at h
    by_cases hx : x = c
    · subst hx
      rw [if_pos rfl] at h
      injection h with h
      injection h with h1 h2
      subst h1; subst h2
      simp
    · rw [if_neg hx] at h
      cases hsp : splitAtFirstChar c xs with
      | none => rw [hsp] at h; cases h
      | some p =>
        obtain ⟨a', b'⟩ := p
        rw [hsp] at h
        injection h with h
        injection h with h1 h2
        obtain ⟨hxa, hna⟩ := ih a' b' hsp
        subst h2
        rw [← h1]
        constructor
        · rw [hxa]; rfl
        · intro hmem
          rcases List.mem_cons.mp hmem with hm | hm
          · exact hx hm.symm
          · exact hna hm

/-- Dispatch of `iv-move`. -/
theorem parse_dispatch_move (rest : Str) (fbn : Option IVInline.FilesMap) :
    IVInline.parseInlineMechanic (toStr "iv-move:" ++ rest) fbn =
      some (IVInline.renderMove rest) := rfl

/-- Dispatch of `iv-burn`. -/
theorem parse_dispatch_burn (rest : Str) (fbn : Option IVInline.FilesMap) :
    IVInline.parseInlineMechanic (toStr "iv-burn:" ++ rest) fbn =
      some (IVInline.renderBurn rest) := rfl

/-- Dispatch of `iv-track-create`. -/
theorem parse_dispatch_track_create (rest : Str) (fbn : Option IVInline.FilesMap) :
    IVInline.parseInlineMechanic (toStr "iv-track-create:" ++ rest) fbn =
      some (IVInline.renderTrackCreate rest fbn) := rfl

/-- Dispatch of `iv-track-complete`. -/
theorem parse_dispatch_track_complete (rest : Str) (fbn : Option IVInline.FilesMap) :
    IVInline.parseInlineMechanic (toStr "iv-track-complete:" ++ rest) fbn =
      some (IVInline.renderTrackComplete rest fbn) := rfl

/-- Dispatch of `iv-progress`. -/
theorem parse_dispatch_progress (rest : Str) (fbn : Option IVInline.FilesMap) :
    IVInline.parseInlineMechanic (toStr "iv-progress:" ++ rest) fbn =
      some (IVInline.renderProgressRoll rest fbn) := rfl

/-- Dispatch of `iv-noroll`. -/
theorem parse_dispatch_noroll (rest : Str) (fbn : Option IVInline.FilesMap) :
    IVInline.parseInlineMechanic (toStr "iv-noroll:" ++ rest) fbn =
      some (IVInline.renderNoRoll rest) := rfl

/-- Dispatch of `iv-entity-create`. -/
theorem parse_dispatch_entity_create (rest : Str) (fbn : Option IVInline.FilesMap) :
    IVInline.parseInlineMechanic (toStr "iv-entity-create:" ++ rest) fbn =
      some (IVInline.renderEntityCreate rest fbn) := rfl

/-- Dispatch of `iv-clock-create`. -/
theorem parse_dispatch_clock_create (rest : Str) (fbn : Option IVInline.FilesMap) :
    IVInline.parseInlineMechanic (toStr "iv-clock-create:" ++ rest) fbn =
      some (IVInline.renderClockCreate rest fbn) := rfl

/-- Dispatch of `iv-clock-resolve`. -/
theorem parse_dispatch_clock_resolve (rest : Str) (fbn : Option IVInline.FilesMap) :
    IVInline.parseInlineMechanic (toStr "iv-clock-resolve:" ++ rest) fbn =
      some (IVInline.renderClockResolve rest fbn) := rfl

/-- Dispatch of `iv-dice`. -/
theorem parse_dispatch_dice (rest : Str) (fbn : Option IVInline.FilesMap) :
    IVInline.parseInlineMechanic (toStr "iv-dice:" ++ rest) fbn =
      some (IVInline.renderDice rest) := rfl

/-- Dispatch of `iv-ooc`. -/
theorem parse_dispatch_ooc (rest : Str) (fbn : Option IVInline.FilesMap) :
    IVInline.parseInlineMechanic (toStr "iv-ooc:" ++ rest) fbn =
      some (IVInline.renderOOC rest) := rfl

set_option maxHeartbeats 1000000 in
/-- C9: `parseInlineMechanic` returns null exactly when the code lacks the
`iv-` prefix, or has no colon, or the part before the first colon is not
one of the sixteen recognized kind tags; on every recognized code it
returns an HTML string, never null. -/
theorem claim9_null_characterization (code : Str) (fbn : Option IVInline.FilesMap) :
    IVInline.parseInlineMechanic code fbn = none ↔
      (¬ ((toStr "iv-").isPrefixOf code = true) ∨ ':' ∉ code ∨
       ∀ ty rest, splitAtFirstChar ':' code = some (ty, rest) →
         ty ∉ IVInline.kindTags) := by
  constructor
  · intro hnone
    by_cases hp : (toStr "iv-").isPrefixOf code = true
    · cases hsp : splitAtFirstChar ':' code with
      | none => exact Or.inr (Or.inl ((splitAtFirstChar_eq_none ':' code).mp hsp))
      | some p =>
        obtain ⟨ty, rest⟩ := p
        refine Or.inr (Or.inr ?_)
        rintro ty' rest' heq htag
        injection heq with heq
        injection heq with h1 h2
        subst h1; subst h2
        obtain ⟨hcode, -⟩ := splitAtFirstChar_eq_some ':' code ty rest hsp
        subst hcode
        simp only [IVInline.kindTags, List.mem_cons, List.not_mem_nil, or_false] at htag
        rcases htag with h | h | h | h | h | h | h | h | h | h | h | h | h | h | h | h
        · subst h
          exact Option.noConfusion ((parse_dispatch_move rest fbn).symm.trans hnone)
        · subst h
          exact Option.noConfusion ((parse_dispatch_oracle rest fbn).symm.trans hnone)
        · subst h
          exact Option.noConfusion ((parse_dispatch_meter rest fbn).symm.trans hnone)
        · subst h
          exact Option.noConfusion ((parse_dispatch_burn rest fbn).symm.trans hnone)
        · subst h
          exact Option.noConfusion ((parse_dispatch_initiative rest fbn).symm.trans hnone)
        · subst h
          exact Option.noConfusion ((parse_dispatch_track_create rest fbn).symm.trans hnone)
        · subst h
          exact Option.noConfusion ((parse_dispatch_track_advance rest fbn).symm.trans hnone)
        · subst h
          exact Option.noConfusion ((parse_dispatch_track_complete rest fbn).symm.trans hnone)
        · subst h
          exact Option.noConfusion ((parse_dispatch_progress rest fbn).symm.trans hnone)
        · subst h
          exact Option.noConfusion ((parse_dispatch_noroll rest fbn).symm.trans hnone)
        · subst h
          exact Option.noConfusion ((parse_dispatch_entity_create rest fbn).symm.trans hnone)
        · subst h
          exact Option.noConfusion ((parse_dispatch_clock_create rest fbn).symm.trans hnone)
        · subst h
          exact Option.noConfusion ((parse_dispatch_clock_advance rest fbn).symm.trans hnone)
        · subst h
          exact Option.noConfusion ((parse_dispatch_clock_resolve rest fbn).symm.trans hnone)
        · subst h
          exact Option.noConfusion ((parse_dispatch_dice rest fbn).symm.trans hnone)
        · subst h
          exact Option.noConfusion ((parse_dispatch_ooc rest fbn).symm.trans hnone)
    · exact Or.inl hp
  · rintro (h | h | h)
    · simp [IVInline.parseInlineMechanic, h]
    · have hn := (splitAtFirstChar_eq_none ':' code).mpr h
      simp [IVInline.parseInlineMechanic, hn]
    · unfold IVInline.parseInlineMechanic
      by_cases hp : (toStr "iv-").isPrefixOf code = true
      · rw [if_pos hp]
        cases hsp : splitAtFirstChar ':' code with
        | none => rfl
        | some p =>
          obtain ⟨ty, rest⟩ := p
          have hni := h ty rest hsp
          simp only [IVInline.kindTags, List.mem_cons, List.not_mem_nil, or_false,
            not_or] at hni
          obtain ⟨n1, n2, n3, n4, n5, n6, n7, n8, n9, n10, n11, n12, n13, n14, n15,
            n16⟩ := hni
          simp only [if_neg n1, if_neg n2, if_neg n3, if_neg n4, if_neg n5, if_neg n6,
            if_neg n7, if_neg n8, if_neg n9, if_neg n10, if_neg n11, if_neg n12,
            if_neg n13, if_neg n14, if_neg n15, if_neg n16]
      · rw [if_neg hp]

/-- Characters of a global single-character replacement come from the
replacement text or are untouched original characters. -/
theorem mem_replaceAllChar {c a : Char} {rep s : Str}
    (h : c ∈ replaceAllChar a rep s) : c ∈ rep ∨ (c ∈ s ∧ c ≠ a) := by
  simp only [replaceAllChar, List.mem_flatMap] at h
  obtain ⟨x, hx, hc⟩ := h
  by_cases hxa : x = a
  · rw [if_pos hxa] at hc
    exact Or.inl hc
  · rw [if_neg hxa] at hc
    simp only [List.mem_singleton] at hc
    subst hc
    exact Or.inr ⟨hx, hxa⟩

/-- The inline `escapeHtml` never emits `<`, `>` or `"`. -/
theorem escapeHtml_char_free (s : Str) :
    '<' ∉ IVInline.escapeHtml s ∧ '>' ∉ IVInline.escapeHtml s ∧
    quoteChar ∉ IVInline.escapeHtml s := by
  refine ⟨?_, ?_, ?_⟩ <;> intro h
  · rcases mem_replaceAllChar h with h | ⟨h, -⟩
    · revert h; decide
    rcases mem_replaceAllChar h with h | ⟨h, -⟩
    · revert h; decide
    rcases mem_replaceAllChar h with h | ⟨h, hne⟩
    · revert h; decide
    · exact hne rfl
  · rcases mem_replaceAllChar h with h | ⟨h, -⟩
    · revert h; decide
    rcases mem_replaceAllChar h with h | ⟨h, hne⟩
    · revert h; decide
    · exact hne rfl
  · rcases mem_replaceAllChar h with h | ⟨h, hne⟩
    · revert h; decide
    · exact hne rfl

set_option maxRecDepth 10000 in
/-- C2 counterexample: in `iv-oracle:Name|<|Res` the roll field `<` reaches
the output verbatim — the rendered HTML holds the raw text `(<)` and not
the escaped `(&lt;)`. -/
theorem claim2_counterexample :
    containsSubstr
      ((IVInline.parseInlineMechanic (toStr "iv-oracle:Name|<|Res") none).getD [])
      (toStr "<span>(<)</span>") = true ∧
    containsSubstr
      ((IVInline.parseInlineMechanic (toStr "iv-oracle:Name|<|Res") none).getD [])
      (toStr "(&lt;)") = false := by decide

/-- C2 amended: the name and result fields of `iv-oracle` and the name
field of `iv-clock-advance` pass through `escapeHtml` (whose output holds
no raw `<`, `>` or `"`), but the roll field of `iv-oracle` and the
from/to/segments fields of `iv-clock-advance` (as well as the resolved
slug) are interpolated verbatim. -/
theorem claim2_amended :
    (∀ s : Str, '<' ∉ IVInline.escapeHtml s ∧ '>' ∉ IVInline.escapeHtml s ∧
       quoteChar ∉ IVInline.escapeHtml s) ∧
    (∀ name roll result : Str, '|' ∉ name → '|' ∉ roll → '|' ∉ result →
       IVInline.parseInlineMechanic
         (toStr "iv-oracle:" ++ (name ++ '|' :: (roll ++ '|' :: result))) none =
       some (toStr "<span class=\"iv-inline-mechanics oracle\">" ++
         toStr "<span class=\"iv-inline-oracle-icon\">" ++ IVInline.iconSparkles ++
         toStr "</span>" ++
         toStr "<span class=\"iv-inline-oracle-name iv-inline-link\">" ++
         IVInline.escapeHtml name ++ toStr "</span>" ++
         toStr "<span>(" ++ roll ++ toStr ")</span>" ++
         toStr "<span class=\"iv-inline-oracle-result\">" ++
         IVInline.escapeHtml result ++ toStr "</span>" ++
         toStr "</span>")) ∧
    (∀ name fromV toV segments path : Str,
       '|' ∉ name → '|' ∉ fromV → '|' ∉ toV → '|' ∉ segments → '|' ∉ path →
       IVInline.parseInlineMechanic
         (toStr "iv-clock-advance:" ++
           (name ++ '|' :: (fromV ++ '|' :: (toV ++ '|' :: (segments ++ '|' :: path))))) none =
       some (toStr "<span class=\"iv-inline-mechanics clock-advance\">" ++
         toStr "<span class=\"iv-inline-clock-icon\">" ++ IVInline.iconClockArrowUp ++
         toStr "</span>" ++
         toStr "<a href=\"/" ++ IVInline.resolvePathToSlug path none ++
         toStr "\" class=\"iv-inline-clock-name iv-inline-link\">" ++
         IVInline.escapeHtml name ++ toStr "</a>" ++
         toStr "<span class=\"iv-inline-clock-progress\">" ++
         jsOrStr fromV (toStr "0") ++ toStr " → " ++ jsOrStr toV (toStr "0") ++
         toStr "/" ++ segments ++ toStr "</span>" ++
         toStr "</span>")) := by
  refine ⟨escapeHtml_char_free, ?_, ?_⟩
  · intro name roll result hn hr hs
    simp only [parse_dispatch_oracle, IVInline.renderOracle]
    rw [splitOnChar_append_cons _ _ _ hn, splitOnChar_append_cons _ _ _ hr,
      splitOnChar_not_mem _ _ hs]
    simp [jsOrStr_empty]
  · intro name fromV toV segments path h1 h2 h3 h4 h5
    simp only [parse_dispatch_clock_advance, IVInline.renderClockAdvance]
    rw [splitOnChar_append_cons _ _ _ h1, splitOnChar_append_cons _ _ _ h2,
      splitOnChar_append_cons _ _ _ h3, splitOnChar_append_cons _ _ _ h4,
      splitOnChar_not_mem _ _ h5]
    simp [jsOrStr_empty]

/-- `s || d` for an empty string yields the default. -/
theorem jsOrStr_nil (d : Str) : jsOrStr [] d = d := rfl

/-- Witness for the amended C2 at concrete field values. -/
theorem claim2_amended_witness :
    IVInline.parseInlineMechanic
      (toStr "iv-oracle:" ++ (toStr "Name" ++ '|' :: (toStr "7" ++ '|' :: toStr "Yes"))) none =
    some (toStr "<span class=\"iv-inline-mechanics oracle\">" ++
      toStr "<span class=\"iv-inline-oracle-icon\">" ++ IVInline.iconSparkles ++
      toStr "</span>" ++
      toStr "<span class=\"iv-inline-oracle-name iv-inline-link\">" ++
      IVInline.escapeHtml (toStr "Name") ++ toStr "</span>" ++
      toStr "<span>(" ++ toStr "7" ++ toStr ")</span>" ++
      toStr "<span class=\"iv-inline-oracle-result\">" ++
      IVInline.escapeHtml (toStr "Yes") ++ toStr "</span>" ++
      toStr "</span>") :=
  claim2_amended.2.1 (toStr "Name") (toStr "7") (toStr "Yes")
    (by decide) (by decide) (by decide)

set_option maxRecDepth 10000 in
/-- C3 counterexample: for an `iv-track-advance` code missing the steps
field (position 6), the rendered steps value is `1`, not `0`: the output of
`iv-track-advance:T|p|0|4|rank` holds ` +1 (1/10)` and holds `+0`
nowhere. -/
theorem claim3_counterexample :
    containsSubstr
      ((IVInline.parseInlineMechanic (toStr "iv-track-advance:T|p|0|4|rank") none).getD [])
      (toStr "> +1 (1/10)</span>") = true ∧
    containsSubstr
      ((IVInline.parseInlineMechanic (toStr "iv-track-advance:T|p|0|4|rank") none).getD [])
      (toStr "+0") = false := by with_unfolding_all decide

/-- C3 amended: parsing an inline code with missing fields is total and
fills defaults, but the defaults are not uniformly `0`/empty: the steps
field of `iv-track-advance` defaults to `1`, and the *to* field of
`iv-initiative` falls back to the *from* value; other numeric fields (for
example both meter endpoints) default to `0`. -/
theorem claim3_amended :
    (∀ name : Str, '|' ∉ name →
      IVInline.parseInlineMechanic (toStr "iv-track-advance:" ++ name) none =
        some (toStr "<span class=\"iv-inline-mechanics track-advance\">" ++
          toStr "<span class=\"iv-inline-track-icon\">" ++ IVInline.iconCopyCheck ++
          toStr "</span>" ++
          toStr "<a href=\"/" ++ toStr "#" ++
          toStr "\" class=\"iv-inline-track-name iv-inline-link\">" ++
          IVInline.escapeHtml name ++ toStr "</a>" ++
          toStr "<span class=\"iv-inline-track-progress\"> +" ++ toStr "1" ++
          toStr " (" ++ toStr "0" ++ toStr "/10)</span>" ++
          toStr "</span>")) ∧
    (∀ name : Str, '|' ∉ name →
      IVInline.parseInlineMechanic (toStr "iv-meter:" ++ name) none =
        some (toStr "<span class=\"iv-inline-mechanics " ++ toStr "\">" ++
          toStr "<span class=\"iv-inline-meter-icon\">" ++ IVInline.iconTrendingUp ++
          toStr "</span>" ++
          toStr "<span class=\"iv-inline-meter-name\">" ++ IVInline.escapeHtml name ++
          toStr ":</span>" ++
          toStr "<span class=\"iv-inline-meter-change\">" ++ toStr "0" ++ toStr " → " ++
          toStr "0" ++ toStr "</span>" ++
          toStr "</span>")) ∧
    (∀ fromV : Str, '|' ∉ fromV →
      IVInline.parseInlineMechanic (toStr "iv-initiative:" ++ fromV) none =
        some (toStr "<span class=\"iv-inline-mechanics " ++
          IVInline.initiativeClass fromV ++ toStr "\">" ++
          toStr "<span class=\"iv-inline-initiative-icon\">" ++ IVInline.iconFootprints ++
          toStr "</span>" ++
          toStr "<span class=\"iv-inline-initiative-label\">Position:</span>" ++
          toStr "<span class=\"iv-inline-initiative-change\">" ++
          IVInline.escapeHtml fromV ++ toStr " → " ++ IVInline.escapeHtml fromV ++
          toStr "</span>" ++
          toStr "</span>")) := by
  refine ⟨?_, ?_, ?_⟩
  · intro name hn
    simp only [parse_dispatch_track_advance, IVInline.renderTrackAdvance]
    rw [splitOnChar_not_mem _ _ hn]
    simp [jsOrStr_empty, jsOrStr_nil,
      show parseIntOr ([] : Str) 0 = 0 from rfl,
      show parseIntOr ([] : Str) 1 = 1 from rfl,
      show IVInline.resolvePathToSlug [] none = toStr "#" from rfl,
      show intToStr 1 = toStr "1" from by decide,
      show Rat.floor (((0 : Int) : ℚ) / 4) = 0 from by with_unfolding_all decide,
      show intToStr (Rat.floor 0) = toStr "0" from by with_unfolding_all decide,
      show intToStr 0 = toStr "0" from by decide]
  · intro name hn
    simp only [parse_dispatch_meter, IVInline.renderMeter]
    rw [splitOnChar_not_mem _ _ hn]
    simp [jsOrStr_empty, jsOrStr_nil,
      show parseIntOr ([] : Str) 0 = 0 from rfl,
      show intToStr 0 = toStr "0" from by decide]
  · intro fromV hn
    simp only [parse_dispatch_initiative, IVInline.renderInitiative]
    rw [splitOnChar_not_mem _ _ hn]
    simp [jsOrStr_empty, jsOrStr_nil]

/-- Witness for the amended C3 at concrete field values. -/
theorem claim3_amended_witness :
    IVInline.parseInlineMechanic (toStr "iv-track-advance:" ++ toStr "Trk") none =
      some (toStr "<span class=\"iv-inline-mechanics track-advance\">" ++
        toStr "<span class=\"iv-inline-track-icon\">" ++ IVInline.iconCopyCheck ++
        toStr "</span>" ++
        toStr "<a href=\"/" ++ toStr "#" ++
        toStr "\" class=\"iv-inline-track-name iv-inline-link\">" ++
        IVInline.escapeHtml (toStr "Trk") ++ toStr "</a>" ++
        toStr "<span class=\"iv-inline-track-progress\"> +" ++ toStr "1" ++
        toStr " (" ++ toStr "0" ++ toStr "/10)</span>" ++
        toStr "</span>") :=
  claim3_amended.1 (toStr "Trk") (by decide)

/-- C4 counterexample: the substring `no` also classifies — `snow` holds
none of `control`, `bad`, `out`, yet `iv-initiative:x|snow` gets the class
`initiative-bad-spot` rather than the default `initiative`. -/
theorem claim4_counterexample :
    IVInline.initiativeClass (toStr "snow") = toStr "initiative-bad-spot" ∧
    containsSubstr (lowerStr (toStr "snow")) (toStr "control") = false ∧
    containsSubstr (lowerStr (toStr "snow")) (toStr "bad") = false ∧
    containsSubstr (lowerStr (toStr "snow")) (toStr "out") = false ∧
    toStr "initiative-bad-spot" ≠ toStr "initiative" ∧
    containsSubstr
      ((IVInline.parseInlineMechanic (toStr "iv-initiative:x|snow") none).getD [])
      (toStr "iv-inline-mechanics initiative-bad-spot\">") = true := by decide

set_option maxRecDepth 10000 in
/-- C4 amended: the class of `iv-initiative` is chosen by case-insensitive
substring match on the *to* value with priority
(control or initiative) > (bad or no) > out > default `initiative` — the
substrings `initiative` and `no` also select the first two classes; the
scenario `iv-initiative:out of combat|in control` yields class
`initiative-in-control` and text `out of combat → in control`. -/
theorem claim4_amended :
    (∀ toV : Str,
      (IVInline.initiativeClass toV = toStr "initiative-in-control" ↔
        (containsSubstr (lowerStr toV) (toStr "control") = true ∨
         containsSubstr (lowerStr toV) (toStr "initiative") = true)) ∧
      (IVInline.initiativeClass toV = toStr "initiative-bad-spot" ↔
        (¬(containsSubstr (lowerStr toV) (toStr "control") = true ∨
           containsSubstr (lowerStr toV) (toStr "initiative") = true) ∧
         (containsSubstr (lowerStr toV) (toStr "bad") = true ∨
          containsSubstr (lowerStr toV) (toStr "no") = true))) ∧
      (IVInline.initiativeClass toV = toStr "initiative-out-of-combat" ↔
        (¬(containsSubstr (lowerStr toV) (toStr "control") = true ∨
           containsSubstr (lowerStr toV) (toStr "initiative") = true) ∧
         ¬(containsSubstr (lowerStr toV) (toStr "bad") = true ∨
           containsSubstr (lowerStr toV) (toStr "no") = true) ∧
         containsSubstr (lowerStr toV) (toStr "out") = true)) ∧
      (IVInline.initiativeClass toV = toStr "initiative" ↔
        (¬(containsSubstr (lowerStr toV) (toStr "control") = true ∨
           containsSubstr (lowerStr toV) (toStr "initiative") = true) ∧
         ¬(containsSubstr (lowerStr toV) (toStr "bad") = true ∨
           containsSubstr (lowerStr toV) (toStr "no") = true) ∧
         containsSubstr (lowerStr toV) (toStr "out") = false))) ∧
    (containsSubstr
       ((IVInline.parseInlineMechanic
         (toStr "iv-initiative:out of combat|in control") none).getD [])
       (toStr "iv-inline-mechanics initiative-in-control\">") = true ∧
     containsSubstr
       ((IVInline.parseInlineMechanic
         (toStr "iv-initiative:out of combat|in control") none).getD [])
       (toStr ">out of combat → in control<") = true) := by
  constructor
  · intro toV
    have dab : toStr "initiative-in-control" ≠ toStr "initiative-bad-spot" := by decide
    have dac : toStr "initiative-in-control" ≠ toStr "initiative-out-of-combat" := by decide
    have dad : toStr "initiative-in-control" ≠ toStr "initiative" := by decide
    have dbc : toStr "initiative-bad-spot" ≠ toStr "initiative-out-of-combat" := by decide
    have dbd : toStr "initiative-bad-spot" ≠ toStr "initiative" := by decide
    have dcd : toStr "initiative-out-of-combat" ≠ toStr "initiative" := by decide
    simp only [IVInline.initiativeClass]
    cases h1 : containsSubstr (lowerStr toV) (toStr "control") <;>
    cases h2 : containsSubstr (lowerStr toV) (toStr "initiative") <;>
    cases h3 : containsSubstr (lowerStr toV) (toStr "bad") <;>
    cases h4 : containsSubstr (lowerStr toV) (toStr "no") <;>
    cases h5 : containsSubstr (lowerStr toV) (toStr "out") <;>
      simp [h1, h2, h3, h4, h5, dab, dac, dad, dbc, dbd, dcd,
        dab.symm, dac.symm, dad.symm, dbc.symm, dbd.symm, dcd.symm]
  · constructor <;> decide

/-- Characters of the hyphenation output are hyphens or original
non-whitespace characters. -/
theorem mem_hyphAux {c : Char} (b : Bool) (s : Str) (h : c ∈ hyphAux b s) :
    c = '-' ∨ (c ∈ s ∧ isJsWs c = false) := by
  induction s generalizing b with
  | nil => simp [hyphAux] at h
  | cons x xs ih =>
    simp only [hyphAux] at h
    by_cases hw : isJsWs x = true
    · rw [if_pos hw] at h
      by_cases hb : b = true
      · rw [if_pos hb] at h
        rcases ih true h with h1 | ⟨h1, h2⟩
        · exact Or.inl h1
        · exact Or.inr ⟨List.mem_cons_of_mem _ h1, h2⟩
      · rw [if_neg hb] at h
        rcases List.mem_cons.mp h with h1 | h1
        · exact Or.inl h1
        · rcases ih true h1 with h2 | ⟨h2, h3⟩
          · exact Or.inl h2
          · exact Or.inr ⟨List.mem_cons_of_mem _ h2, h3⟩
    · rw [if_neg hw] at h
      rcases List.mem_cons.mp h with h1 | h1
      · subst h1
        refine Or.inr ⟨List.mem_cons_self _ _, ?_⟩
        revert hw; cases isJsWs c <;> simp
      · rcases ih false h1 with h2 | ⟨h2, h3⟩
        · exact Or.inl h2
        · exact Or.inr ⟨List.mem_cons_of_mem _ h2, h3⟩

/-- Characters of the shared slug pipeline (lowercase, hyphenate, strip
parentheses and apostrophes) are never whitespace, parentheses or
apostrophes. -/
theorem slugPipeline_char_free {c : Char} (s : Str)
    (h : c ∈ removeApos (removeParens (hyphenateWs (lowerStr s)))) :
    isJsWs c = false ∧ c ≠ '(' ∧ c ≠ ')' ∧ c ≠ aposChar := by
  rw [removeApos, List.mem_filter] at h
  obtain ⟨h, hap⟩ := h
  rw [removeParens, List.mem_filter] at h
  obtain ⟨h, hpar⟩ := h
  simp only [Bool.not_eq_true', decide_eq_false_iff_not] at hap
  simp only [Bool.not_eq_true', Bool.or_eq_false_iff, decide_eq_false_iff_not] at hpar
  rcases mem_hyphAux false _ h with h1 | ⟨-, h2⟩
  · subst h1
    exact ⟨by decide, hpar.1, hpar.2, hap⟩
  · exact ⟨h2, hpar.1, hpar.2, hap⟩

/-- The head of a `dropWhile` result never satisfies the predicate. -/
theorem head?_dropWhile_not (p : Char → Bool) (l : Str) (x : Char)
    (h : (l.dropWhile p).head? = some x) : p x = false := by
  induction l with
  | nil => simp [List.dropWhile] at h
  | cons a t ih =>
    simp only [List.dropWhile] at h
    cases hpa : p a with
    | true =>
      simp only [hpa] at h
      exact ih h
    | false =>
      simp only [hpa, List.head?_cons, Option.some.injEq] at h
      subst h
      exact hpa

/-- C6 counterexample: the inline slug routine produces no leading slash at
all — `pathToSlug "abc" = "abc"`. -/
theorem claim6_counterexample :
    IVInline.pathToSlug (toStr "abc") = toStr "abc" ∧
    (IVInline.pathToSlug (toStr "abc")).head? ≠ some '/' := by decide

/-- C6 amended: both routines are pure functions of their input; for every
nonempty path the block routine's output starts with exactly one `/` and
holds no whitespace, parentheses or apostrophes; the inline routine's
output also holds none of those characters but has no leading-slash
guarantee; the empty path maps to `#` in both. -/
theorem claim6_amended (path : Str) (h : path ≠ []) :
    (IVBlocks.pathToSlug path).head? = some '/' ∧
    (∀ x, ((IVBlocks.pathToSlug path).drop 1).head? = some x → x ≠ '/') ∧
    (∀ c ∈ IVBlocks.pathToSlug path,
      isJsWs c = false ∧ c ≠ '(' ∧ c ≠ ')' ∧ c ≠ aposChar) ∧
    (∀ c ∈ IVInline.pathToSlug path,
      isJsWs c = false ∧ c ≠ '(' ∧ c ≠ ')' ∧ c ≠ aposChar) := by
  refine ⟨?_, ?_, ?_, ?_⟩
  · simp [IVBlocks.pathToSlug, h]
  · intro x hx
    simp only [IVBlocks.pathToSlug, if_neg h, List.drop_succ_cons, List.drop_zero] at hx
    have := head?_dropWhile_not _ _ _ hx
    intro hc
    subst hc
    simp at this
  · intro c hc
    simp only [IVBlocks.pathToSlug, if_neg h] at hc
    rcases List.mem_cons.mp hc with h1 | h1
    · subst h1; exact ⟨by decide, by decide, by decide, by decide⟩
    · exact slugPipeline_char_free _ ((List.dropWhile_sublist _).subset h1)
  · intro c hc
    simp only [IVInline.pathToSlug, if_neg h] at hc
    exact slugPipeline_char_free _ hc

/-- Witness for the amended C6. -/
theorem claim6_amended_witness :
    (IVBlocks.pathToSlug (toStr "A B.md")).head? = some '/' ∧
    (∀ c ∈ IVInline.pathToSlug (toStr "A B.md"),
      isJsWs c = false ∧ c ≠ '(' ∧ c ≠ ')' ∧ c ≠ aposChar) :=
  ⟨(claim6_amended (toStr "A B.md") (by decide)).1,
   (claim6_amended (toStr "A B.md") (by decide)).2.2.2⟩

/-- The collect loop never runs past the last line. -/
theorem collectBlockAux_snd_lt (lines : List Str) (i₀ : Nat) (bc₀ : Int)
    (h : i₀ < lines.length) :
    i₀ + (IVBlocks.collectBlockAux lines i₀ bc₀).2 < lines.length := by
  induction i₀, bc₀ using IVBlocks.collectBlockAux.induct lines with
  | case1 i bc hg nxt ih =>
    have hnxt : nxt = lines.getD (i + 1) [] := rfl
    rw [IVBlocks.collectBlockAux, dif_pos hg]
    have hih := ih hg.2
    rw [hnxt] at hih
    simp only []
    omega
  | case2 i bc hg =>
    rw [IVBlocks.collectBlockAux, dif_neg hg]
    simpa using h

/-- The collected extra lines are the slice following the start line. -/
theorem collectBlockAux_fst (lines : List Str) (i₀ : Nat) (bc₀ : Int) :
    (IVBlocks.collectBlockAux lines i₀ bc₀).1 =
      (lines.drop (i₀ + 1)).take (IVBlocks.collectBlockAux lines i₀ bc₀).2 := by
  induction i₀, bc₀ using IVBlocks.collectBlockAux.induct lines with
  | case1 i bc hg nxt ih =>
    have hnxt : nxt = lines.getD (i + 1) [] := rfl
    rw [hnxt] at ih
    rw [IVBlocks.collectBlockAux, dif_pos hg]
    simp only []
    rw [ih]
    have hdrop : lines.drop (i + 1) = lines.getD (i + 1) [] :: lines.drop (i + 1 + 1) := by
      rw [List.getD_eq_getElem?_getD, List.getElem?_eq_getElem hg.2, Option.getD_some]
      exact List.drop_eq_getElem_cons hg.2
    rw [hdrop, List.take_succ_cons]
  | case2 i bc hg =>
    rw [IVBlocks.collectBlockAux, dif_neg hg]
    simp

/-- Length of a newline join: sum of line lengths plus the separators. -/
theorem joinNl_length (l : List Str) :
    (joinNl l).length = (l.map List.length).sum + (l.length - 1) := by
  induction l with
  | nil => simp [joinNl]
  | cons x xs ih =>
    cases xs with
    | nil => simp [joinNl]
    | cons y ys =>
      simp only [joinNl] at ih ⊢
      simp only [List.length_append, List.length_cons, List.map_cons, List.sum_cons] at ih ⊢
      omega

/-- Joining a prefix of the lines is no longer than joining all of them. -/
theorem joinNl_take_le (l : List Str) (k : Nat) :
    (joinNl (l.take k)).length ≤ (joinNl l).length := by
  rw [joinNl_length, joinNl_length]
  have h1 : List.Sublist ((l.take k).map List.length) (l.map List.length) :=
    (List.take_sublist k l).map List.length
  have h2 := h1.sum_le_sum (by intro x hx; exact Nat.zero_le x)
  have h3 : (l.take k).length = min k l.length := List.length_take k l
  omega

/-- Joining a suffix of the lines is no longer than joining all of them. -/
theorem joinNl_drop_le (l : List Str) (k : Nat) :
    (joinNl (l.drop k)).length ≤ (joinNl l).length := by
  rw [joinNl_length, joinNl_length]
  have h1 : List.Sublist ((l.drop k).map List.length) (l.map List.length) :=
    (List.drop_sublist k l).map List.length
  have h2 := h1.sum_le_sum (by intro x hx; exact Nat.zero_le x)
  have h3 : (l.drop k).length = l.length - k := List.length_drop k l
  omega

/-- Splitting at newlines and rejoining is the identity. -/
theorem joinNl_splitOnChar (s : Str) :
    joinNl (splitOnChar (Char.ofNat 10) s) = s := by
  induction s with
  | nil => rfl
  | cons c cs ih =>
    simp only [splitOnChar]
    by_cases hc : c = Char.ofNat 10
    · subst hc
      rw [if_pos rfl]
      cases hr : splitOnChar (Char.ofNat 10) cs with
      | nil => exact absurd hr (splitOnChar_ne_nil _ _)
      | cons h t =>
        rw [hr] at ih
        simp only [joinNl]
        cases t with
        | nil => simp [joinNl] at ih ⊢; exact ih
        | cons t1 t2 => simp only [joinNl] at ih ⊢; simp [ih]
    · rw [if_neg hc]
      cases hr : splitOnChar (Char.ofNat 10) cs with
      | nil => exact absurd hr (splitOnChar_ne_nil _ _)
      | cons h t =>
        rw [hr] at ih
        cases t with
        | nil => simp only [joinNl] at ih ⊢; simp [ih]
        | cons t1 t2 => simp only [joinNl] at ih ⊢; simp [ih]

/-- Trimming never lengthens a string. -/
theorem trimStr_length_le (s : Str) : (trimStr s).length ≤ s.length := by
  unfold trimStr trimEndStr
  calc ((s.dropWhile isJsWs).reverse.dropWhile isJsWs).reverse.length
      = ((s.dropWhile isJsWs).reverse.dropWhile isJsWs).length := List.length_reverse _
    _ ≤ (s.dropWhile isJsWs).reverse.length :=
        (List.dropWhile_sublist _).length_le
    _ = (s.dropWhile isJsWs).length := List.length_reverse _
    _ ≤ s.length := (List.dropWhile_sublist _).length_le

/-- A prefix with a head shares it with the longer list. -/
theorem prefix_head_eq {t m : Str} {a : Char} (hp : List.IsPrefix t m)
    (h : t.head? = some a) : m.head? = some a := by
  obtain ⟨r, rfl⟩ := hp
  cases t with
  | nil => cases h
  | cons x xs => simpa using h

/-- A trimmed string sits inside the original. -/
theorem trimStr_isInfix (l : Str) : trimStr l <:+: l := by
  unfold trimStr trimEndStr
  have h2 : List.IsSuffix ((l.dropWhile isJsWs).reverse.dropWhile isJsWs)
      (l.dropWhile isJsWs).reverse := List.dropWhile_suffix _
  have h3 : List.IsPrefix ((l.dropWhile isJsWs).reverse.dropWhile isJsWs).reverse
      (l.dropWhile isJsWs) := by
    have hh := List.reverse_prefix.mpr h2
    rw [List.reverse_reverse] at hh
    exact hh
  exact h3.isInfix.trans (List.dropWhile_suffix _).isInfix

/-- The head of a trimmed string is the original head, unless the original
starts with whitespace. -/
theorem trimStr_head (l : Str) (a : Char) (h : (trimStr l).head? = some a) :
    l.head? = some a ∨ ∃ w, l.head? = some w ∧ isJsWs w = true := by
  unfold trimStr at h
  have hpre : List.IsPrefix (trimEndStr (l.dropWhile isJsWs)) (l.dropWhile isJsWs) := by
    unfold trimEndStr
    have hh := List.reverse_prefix.mpr
      (List.dropWhile_suffix isJsWs :
        List.dropWhile isJsWs (l.dropWhile isJsWs).reverse <:+ (l.dropWhile isJsWs).reverse)
    rw [List.reverse_reverse] at hh
    exact hh
  have hm : (l.dropWhile isJsWs).head? = some a := prefix_head_eq hpre h
  cases l with
  | nil => simp [List.dropWhile] at hm
  | cons x xs =>
    by_cases hw : isJsWs x = true
    · exact Or.inr ⟨x, rfl, hw⟩
    · left
      have hw' : isJsWs x = false := by revert hw; cases isJsWs x <;> simp
      simp only [List.dropWhile, hw'] at hm
      exact hm

/-- Specification of `indexOf`: a found index is in range and holds the
character. -/
theorem idxOfChar_spec (s : Str) (c : Char) (i : Nat) (h : idxOfChar s c = some i) :
    i < s.length ∧ s[i]? = some c := by
  induction s generalizing i with
  | nil => cases h
  | cons x xs ih =>
    simp only [idxOfChar] at h
    by_cases hx : x = c
    · rw [if_pos hx] at h
      injection h with h
      subst h
      subst hx
      exact ⟨Nat.succ_pos _, by simp⟩
    · rw [if_neg hx] at h
      cases hi : idxOfChar xs c with
      | none => rw [hi] at h; cases h
      | some j =>
        rw [hi] at h
        simp only [Option.map_some'] at h
        injection h with h
        subst h
        obtain ⟨h1, h2⟩ := ih j hi
        exact ⟨by simpa using Nat.succ_lt_succ h1, by simpa using h2⟩

/-- Specification of `lastIndexOf`. -/
theorem lastIdxOfChar_spec (s : Str) (c : Char) (j : Nat)
    (h : lastIdxOfChar s c = some j) : j < s.length ∧ s[j]? = some c := by
  unfold lastIdxOfChar at h
  cases hi : idxOfChar s.reverse c with
  | none => rw [hi] at h; cases h
  | some i =>
    rw [hi] at h
    simp only [Option.map_some'] at h
    injection h with h
    obtain ⟨h1, h2⟩ := idxOfChar_spec _ _ _ hi
    rw [List.length_reverse] at h1
    subst h
    refine ⟨by omega, ?_⟩
    rw [List.getElem?_reverse h1] at h2
    exact h2

/-- Unescaping path separators never empties a nonempty string. -/
theorem unescSlashes_ne_nil (s : Str) (h : s ≠ []) : unescSlashes s ≠ [] := by
  match s with
  | [x] => simp [unescSlashes]
  | x :: y :: rest =>
    simp only [unescSlashes]
    split <;> simp

/-- C5 counterexample: the two slug routines disagree already on `abc` —
the block parser's adds a leading slash, the inline parser's does not. -/
theorem claim5_counterexample :
    IVInline.pathToSlug (toStr "abc") = toStr "abc" ∧
    IVBlocks.pathToSlug (toStr "abc") = toStr "/abc" ∧
    IVInline.pathToSlug (toStr "abc") ≠ IVBlocks.pathToSlug (toStr "abc") := by decide

/-- C5 amended: the routines are not identical; for every nonempty path the
block routine equals the inline routine applied to the `\/`-unescaped path,
with leading slashes stripped and exactly one slash prepended (both map the
empty path to `#`). -/
theorem claim5_amended (path : Str) (h : path ≠ []) :
    IVBlocks.pathToSlug path =
      '/' :: (IVInline.pathToSlug (unescSlashes path)).dropWhile (fun c => c = '/') := by
  have hu : unescSlashes path ≠ [] := unescSlashes_ne_nil path h
  simp [IVBlocks.pathToSlug, IVInline.pathToSlug, h, hu]

/-- Witness for the amended C5. -/
theorem claim5_amended_witness :
    IVBlocks.pathToSlug (toStr "Foo.md") =
      '/' :: (IVInline.pathToSlug (unescSlashes (toStr "Foo.md"))).dropWhile
        (fun c => c = '/') :=
  claim5_amended (toStr "Foo.md") (by decide)

set_option maxRecDepth 40000 in
/-- C8 counterexample: in the scenario line the rank is unquoted, so the
prop regexes capture no `rank` and the default of 4 ticks/step applies —
the rendered to-boxes value is 2 (ticksToAdd = 8, newProgress = 11), not
the claimed 4 (ticksToAdd = 16, newProgress = 19). -/
theorem claim8_counterexample :
    IVBlocks.getProp
      (IVBlocks.parseProps
        (toStr "progress name=\"[[Foo|Foo Track]]\" rank=dangerous steps=2 from=3"))
      (toStr "rank") = none ∧
    containsSubstr
      (IVBlocks.parseProgressBlock
        (toStr "progress name=\"[[Foo|Foo Track]]\" rank=dangerous steps=2 from=3"))
      (toStr "<dd class=\"to-boxes\">2</dd>") = true ∧
    containsSubstr
      (IVBlocks.parseProgressBlock
        (toStr "progress name=\"[[Foo|Foo Track]]\" rank=dangerous steps=2 from=3"))
      (toStr "<dd class=\"to-boxes\">4</dd>") = false := by
  with_unfolding_all decide

set_option maxRecDepth 40000 in
/-- C8 amended: ticksToAdd is `table[rank] * steps` with the claimed table
and default 4, where `rank` is the parsed rank prop — captured only from a
quoted `rank="..."` (or numeric) form.  With `rank="dangerous"` the
scenario line yields ticksToAdd = 16, newProgress = 19, to-boxes 4,
to-ticks 3, from-boxes 0, from-ticks 3; with the unquoted `rank=dangerous`
of the claim the rank prop is absent and the line yields to-boxes 2,
to-ticks 3. -/
theorem claim8_amended :
    IVBlocks.rankTicksOr4 (toStr "troublesome") = 12 ∧
    IVBlocks.rankTicksOr4 (toStr "dangerous") = 8 ∧
    IVBlocks.rankTicksOr4 (toStr "formidable") = 4 ∧
    IVBlocks.rankTicksOr4 (toStr "extreme") = 2 ∧
    IVBlocks.rankTicksOr4 (toStr "epic") = 1 ∧
    IVBlocks.rankTicksOr4 (toStr "solo") = 4 ∧
    (∀ s : ℚ,
      JsNum.mul (.num (IVBlocks.rankTicksOr4 (toStr "dangerous"))) (.num s) =
        .num (8 * s)) ∧
    JsNum.floorJs (JsNum.div (.num 19) (.num 4)) = .num 4 ∧
    JsNum.jsMod (.num 19) (.num 4) = .num 3 ∧
    JsNum.floorJs (JsNum.div (.num 3) (.num 4)) = .num 0 ∧
    JsNum.jsMod (.num 3) (.num 4) = .num 3 ∧
    containsSubstr
      (IVBlocks.parseProgressBlock
        (toStr "progress name=\"[[Foo|Foo Track]]\" rank=\"dangerous\" steps=2 from=3"))
      (toStr "<dd class=\"to-boxes\">4</dd>") = true ∧
    containsSubstr
      (IVBlocks.parseProgressBlock
        (toStr "progress name=\"[[Foo|Foo Track]]\" rank=\"dangerous\" steps=2 from=3"))
      (toStr "<dd class=\"to-ticks\">3</dd>") = true ∧
    containsSubstr
      (IVBlocks.parseProgressBlock
        (toStr "progress name=\"[[Foo|Foo Track]]\" rank=\"dangerous\" steps=2 from=3"))
      (toStr "<dd class=\"from-boxes\">0</dd>") = true ∧
    containsSubstr
      (IVBlocks.parseProgressBlock
        (toStr "progress name=\"[[Foo|Foo Track]]\" rank=\"dangerous\" steps=2 from=3"))
      (toStr "<dd class=\"from-ticks\">3</dd>") = true ∧
    containsSubstr
      (IVBlocks.parseProgressBlock
        (toStr "progress name=\"[[Foo|Foo Track]]\" rank=\"dangerous\" steps=2 from=3"))
      (toStr "<dd class=\"steps positive\">2</dd>") = true := by
  refine ⟨?_, ?_, ?_, ?_, ?_, ?_, ?_, ?_, ?_, ?_, ?_, ?_, ?_, ?_, ?_, ?_⟩
  · with_unfolding_all decide
  · with_unfolding_all decide
  · with_unfolding_all decide
  · with_unfolding_all decide
  · with_unfolding_all decide
  · with_unfolding_all decide
  · intro s
    rw [show IVBlocks.rankTicksOr4 (toStr "dangerous") = 8 from by with_unfolding_all decide]
    rfl
  · with_unfolding_all decide
  · with_unfolding_all decide
  · with_unfolding_all decide
  · with_unfolding_all decide
  · with_unfolding_all decide
  · with_unfolding_all decide
  · with_unfolding_all decide
  · with_unfolding_all decide
  · with_unfolding_all decide

/-- The head of a newline join is the head of the first line, when the
first line is nonempty. -/
theorem joinNl_head (x : Str) (xs : List Str) (hx : x ≠ []) :
    (joinNl (x :: xs)).head? = x.head? := by
  cases xs with
  | nil => rfl
  | cons y ys =>
    cases x with
    | nil => exact absurd rfl hx
    | cons a as => rfl

/-- The collected block begins with the line at the cursor. -/
theorem collectBlock_head (lines : List Str) (i : Nat)
    (hne : lines.getD i [] ≠ []) :
    (IVBlocks.collectBlock lines i).1.head? = (lines.getD i []).head? := by
  unfold IVBlocks.collectBlock
  simp only []
  exact joinNl_head _ _ hne

/-- The collected block is no longer than the join of all the lines. -/
theorem collectBlock_fst_le (lines : List Str) (i : Nat) (h : i < lines.length) :
    (IVBlocks.collectBlock lines i).1.length ≤ (joinNl lines).length := by
  unfold IVBlocks.collectBlock
  simp only []
  rw [collectBlockAux_fst]
  have hd2 : lines.drop i = lines.getD i [] :: lines.drop (i + 1) := by
    rw [List.getD_eq_getElem?_getD, List.getElem?_eq_getElem h, Option.getD_some]
    exact List.drop_eq_getElem_cons h
  have hdrop : lines.getD i [] :: (lines.drop (i + 1)).take
      (IVBlocks.collectBlockAux lines i (IVBlocks.braceDelta (lines.getD i []))).2 =
      (lines.drop i).take
      ((IVBlocks.collectBlockAux lines i (IVBlocks.braceDelta (lines.getD i []))).2 + 1) := by
    rw [hd2, List.take_succ_cons]
  rw [hdrop]
  exact le_trans (joinNl_take_le _ _) (joinNl_drop_le lines i)

/-- When an actor body is nonempty and the content does not begin with a
closing brace, the recursive parse input is strictly shorter than the
content. -/
theorem actorInner_length_lt (c : Str) (hhead : c.head? ≠ some braceClose)
    (hne : IVBlocks.actorInner c ≠ []) :
    (IVBlocks.actorInner c).length < c.length := by
  unfold IVBlocks.actorInner at hne ⊢
  cases hbs : idxOfChar c braceOpen with
  | none => simp only [hbs] at hne; exact absurd rfl hne
  | some bs =>
    cases hbe : lastIdxOfChar c braceClose with
    | none => simp only [hbs, hbe] at hne; exact absurd rfl hne
    | some be =>
      simp only [hbs, hbe] at hne ⊢
      obtain ⟨hbs1, hbs2⟩ := idxOfChar_spec c braceOpen bs hbs
      obtain ⟨hbe1, hbe2⟩ := lastIdxOfChar_spec c braceClose be hbe
      have hne2 : bs ≠ be := by
        intro he
        subst he
        rw [hbs2] at hbe2
        injection hbe2 with he2
        exact absurd he2 (by decide)
      have hbe0 : be ≠ 0 := by
        intro he
        subst he
        apply hhead
        cases c with
        | nil => simp at hbe2
        | cons x xs => simpa using hbe2
      have hsub : (substringJS c (bs + 1) be).length + 1 ≤ c.length := by
        unfold substringJS
        simp only [List.length_drop, List.length_take]
        omega
      have htr := trimStr_length_le (substringJS c (bs + 1) be)
      omega

/-- When the first opening brace precedes the last closing brace, the actor
body lies between the two braces. -/
theorem actorInner_between (c : Str) (bs be : Nat)
    (hbs : idxOfChar c braceOpen = some bs)
    (hbe : lastIdxOfChar c braceClose = some be) (hlt : bs < be) :
    IVBlocks.actorInner c <:+: (c.take be).drop (bs + 1) := by
  obtain ⟨hbe1, -⟩ := lastIdxOfChar_spec c braceClose be hbe
  unfold IVBlocks.actorInner
  simp only [hbs, hbe]
  have hs : substringJS c (bs + 1) be = (c.take be).drop (bs + 1) := by
    unfold substringJS
    simp only []
    rw [min_eq_left (by omega), min_eq_left (by omega),
      max_eq_right (by omega), min_eq_left (by omega)]
  rw [hs]
  exact trimStr_isInfix _

/-- A list beginning with a verified prefix starts with its first
character. -/
theorem isPrefixOf_head {p l : Str} {a : Char}
    (hp : List.isPrefixOf (a :: p) l = true) : l.head? = some a := by
  obtain ⟨t, rfl⟩ := List.isPrefixOf_iff_prefix.mp hp
  rfl

/-- A keyword-guarded line yields a collected block that does not start
with a closing brace. -/
theorem collectBlock_head_ne (lines : List Str) (i : Nat) (a : Char)
    (hne : a ≠ braceClose)
    (hh : (trimStr (lines.getD i [])).head? = some a) :
    (IVBlocks.collectBlock lines i).1.head? ≠ some braceClose := by
  have h0 : lines.getD i [] ≠ [] := by
    intro h0
    rw [h0] at hh
    exact Option.noConfusion hh
  rw [collectBlock_head lines i h0]
  rcases trimStr_head _ _ hh with h1 | ⟨w, hw1, hw2⟩
  · rw [h1]
    intro hc
    injection hc with hc
    exact hne hc
  · rw [hw1]
    intro hc
    injection hc with hc
    subst hc
    exact absurd hw2 (by decide)

set_option maxHeartbeats 1600000 in
/-- The scan step does not depend on the actor renderer beyond its values
on collected blocks, which are bounded by the join of all the lines and
never start with a closing brace. -/
theorem blockStep_congr (r1 r2 : Str → Str) (lines : List Str) (i : Nat)
    (hi : i < lines.length)
    (h : ∀ s : Str, s.length ≤ (joinNl lines).length →
      s.head? ≠ some braceClose → r1 s = r2 s) :
    IVBlocks.blockStep r1 lines i = IVBlocks.blockStep r2 lines i := by
  unfold IVBlocks.blockStep
  lift_lets
  extract_lets line cb
  by_cases hact : List.isPrefixOf (toStr "actor ") line = true
  · have hline : line = trimStr (lines.getD i []) := rfl
    have hcb : cb = IVBlocks.collectBlock lines i := rfl
    have hguard := hact
    rw [hline] at hguard
    have hh : (trimStr (lines.getD i [])).head? = some 'a' := isPrefixOf_head hguard
    have hne := collectBlock_head_ne lines i 'a' (by decide) hh
    have hr := h (IVBlocks.collectBlock lines i).1 (collectBlock_fst_le lines i hi) hne
    rw [← hcb] at hr
    rw [hr]
  · rw [if_neg hact, if_neg hact]

/-- One iteration of the scanning loop: within bounds, the loop emits the
step fragment (if any) and continues past the consumed lines, the cursor
strictly advancing. -/
theorem blockLoop_advance (r : Str → Str) (lines : List Str) (i : Nat)
    (hi : i < lines.length) :
    IVBlocks.blockLoop r lines i =
      (match (IVBlocks.blockStep r lines i).1 with
        | some v => [v]
        | none => []) ++
      IVBlocks.blockLoop r lines (i + (IVBlocks.blockStep r lines i).2 + 1) := by
  conv_lhs => rw [IVBlocks.blockLoop]
  simp only [dif_pos hi]
  cases hs : (IVBlocks.blockStep r lines i).1 with
  | none => rfl
  | some v => rfl

/-- The scanning loop does not depend on the actor renderer beyond its
values on collected blocks. -/
theorem blockLoop_congr (r1 r2 : Str → Str) (lines : List Str)
    (h : ∀ s : Str, s.length ≤ (joinNl lines).length →
      s.head? ≠ some braceClose → r1 s = r2 s) (i : Nat) :
    IVBlocks.blockLoop r1 lines i = IVBlocks.blockLoop r2 lines i := by
  by_cases hi : i < lines.length
  · have hst := blockStep_congr r1 r2 lines i hi h
    have hrec := blockLoop_congr r1 r2 lines h
      (i + (IVBlocks.blockStep r1 lines i).2 + 1)
    conv_lhs => rw [IVBlocks.blockLoop]
    conv_rhs => rw [IVBlocks.blockLoop]
    simp only [dif_pos hi]
    rw [← hst]
    cases hs : (IVBlocks.blockStep r1 lines i).1 with
    | none => exact hrec
    | some v => rw [hrec]
  · conv_lhs => rw [IVBlocks.blockLoop]
    conv_rhs => rw [IVBlocks.blockLoop]
    simp only [dif_neg hi]
termination_by lines.length - i
decreasing_by omega

/-- The fuel-indexed block parser is independent of the fuel once it
exceeds the content length: every nested actor body is strictly shorter
than its enclosing content, so the recursion always bottoms out. -/
theorem parseIVB_stab (c : Str) (f : Nat) (hf : c.length < f) :
    IVBlocks.parseIronVaultBlockF f c =
      IVBlocks.parseIronVaultBlockF (c.length + 1) c := by
  obtain ⟨g, rfl⟩ : ∃ g, f = g + 1 := ⟨f - 1, by omega⟩
  simp only [IVBlocks.parseIronVaultBlockF]
  have hjoin : (joinNl (splitOnChar (Char.ofNat 10) (trimStr c))).length ≤ c.length := by
    rw [joinNl_splitOnChar]
    exact trimStr_length_le c
  have hagree : ∀ s : Str,
      s.length ≤ (joinNl (splitOnChar (Char.ofNat 10) (trimStr c))).length →
      s.head? ≠ some braceClose →
      IVBlocks.parseActorBlockAux (IVBlocks.parseIronVaultBlockF g) s =
        IVBlocks.parseActorBlockAux (IVBlocks.parseIronVaultBlockF c.length) s := by
    intro s hs hhead
    by_cases h0 : IVBlocks.actorInner s = []
    · simp [IVBlocks.parseActorBlockAux, h0]
    · have hlt : (IVBlocks.actorInner s).length < s.length :=
        actorInner_length_lt s hhead h0
      have hic : (IVBlocks.actorInner s).length < c.length := by omega
      have e1 := parseIVB_stab (IVBlocks.actorInner s) g (by omega)
      have e2 := parseIVB_stab (IVBlocks.actorInner s) c.length hic
      have e3 : IVBlocks.parseIronVaultBlockF g (IVBlocks.actorInner s) =
          IVBlocks.parseIronVaultBlockF c.length (IVBlocks.actorInner s) :=
        e1.trans e2.symm
      simp only [IVBlocks.parseActorBlockAux]
      rw [e3]
  have hcong := blockLoop_congr
    (IVBlocks.parseActorBlockAux (IVBlocks.parseIronVaultBlockF g))
    (IVBlocks.parseActorBlockAux (IVBlocks.parseIronVaultBlockF c.length))
    (splitOnChar (Char.ofNat 10) (trimStr c)) hagree 0
  rw [hcong]
termination_by c.length
decreasing_by all_goals omega

/-- C10 counterexample: on the content `actor x` followed by a closing and
then an opening brace, the first opening brace (index 10) comes after the
last closing brace (index 8); `substring` swaps its arguments, so the
recursive parse input is the swapped slice containing both braces — not a
substring lying strictly between the first opening brace and the last
closing brace (that region, take 8 then drop 11, is empty). -/
theorem claim10_counterexample :
    ((toStr "actor ").isPrefixOf (trimStr (toStr "actor x \x7d \x7b")) = true) ∧
    idxOfChar (toStr "actor x \x7d \x7b") braceOpen = some 10 ∧
    lastIdxOfChar (toStr "actor x \x7d \x7b") braceClose = some 8 ∧
    IVBlocks.actorInner (toStr "actor x \x7d \x7b") = toStr "\x7d \x7b" ∧
    IVBlocks.actorInner (toStr "actor x \x7d \x7b") ≠ [] ∧
    braceOpen ∈ IVBlocks.actorInner (toStr "actor x \x7d \x7b") ∧
    braceClose ∈ IVBlocks.actorInner (toStr "actor x \x7d \x7b") ∧
    ((toStr "actor x \x7d \x7b").take 8).drop (10 + 1) = [] := by decide

/-- C10 amended: the block parser terminates on every input.  The collect
loop returns an end index between the start index and the line count; the
scanning loop advances its cursor strictly past each consumed block; when
the first opening brace precedes the last closing brace the actor
recursion input lies between the two braces (otherwise `substring` swaps
its arguments and it may contain both braces); for content not starting
with a closing brace — true of every collected actor block — a nonempty
recursion input is strictly shorter than its content, so the fuel-indexed
parser stabilizes at any fuel above the content length, and
`parseIronVaultBlock` realises the source's unbounded recursion. -/
theorem claim10_amended :
    (∀ (lines : List Str) (i : Nat), i < lines.length →
      i ≤ (IVBlocks.collectBlock lines i).2 ∧
      (IVBlocks.collectBlock lines i).2 < lines.length) ∧
    (∀ (r : Str → Str) (lines : List Str) (i : Nat), i < lines.length →
      IVBlocks.blockLoop r lines i =
        (match (IVBlocks.blockStep r lines i).1 with
          | some v => [v]
          | none => []) ++
        IVBlocks.blockLoop r lines (i + (IVBlocks.blockStep r lines i).2 + 1)) ∧
    (∀ (c : Str) (bs be : Nat), idxOfChar c braceOpen = some bs →
      lastIdxOfChar c braceClose = some be → bs < be →
      IVBlocks.actorInner c <:+: (c.take be).drop (bs + 1)) ∧
    (∀ c : Str, c.head? ≠ some braceClose → IVBlocks.actorInner c ≠ [] →
      (IVBlocks.actorInner c).length < c.length) ∧
    (∀ (c : Str) (f : Nat), c.length < f →
      IVBlocks.parseIronVaultBlockF f c = IVBlocks.parseIronVaultBlock c) := by
  refine ⟨?_, blockLoop_advance, actorInner_between, actorInner_length_lt, ?_⟩
  · intro lines i h
    unfold IVBlocks.collectBlock
    simp only []
    exact ⟨Nat.le_add_right i _, collectBlockAux_snd_lt lines i _ h⟩
  · intro c f hf
    exact parseIVB_stab c f hf

/-- Witness for the amended C10. -/
theorem claim10_amended_witness :
    (0 ≤ (IVBlocks.collectBlock [toStr "move x"] 0).2 ∧
      (IVBlocks.collectBlock [toStr "move x"] 0).2 < [toStr "move x"].length) ∧
    (IVBlocks.blockLoop (fun _ => []) [toStr "xp x"] 0 =
      (match (IVBlocks.blockStep (fun _ => []) [toStr "xp x"] 0).1 with
        | some v => [v]
        | none => []) ++
      IVBlocks.blockLoop (fun _ => []) [toStr "xp x"]
        (0 + (IVBlocks.blockStep (fun _ => []) [toStr "xp x"] 0).2 + 1)) ∧
    (IVBlocks.actorInner (toStr "a\x7bx\x7d") <:+:
      ((toStr "a\x7bx\x7d").take 3).drop (1 + 1)) ∧
    ((IVBlocks.actorInner (toStr "a\x7bx\x7d")).length <
      (toStr "a\x7bx\x7d").length) ∧
    (IVBlocks.parseIronVaultBlockF 1 (toStr "") =
      IVBlocks.parseIronVaultBlock (toStr "")) :=
  ⟨claim10_amended.1 [toStr "move x"] 0 (by decide),
   claim10_amended.2.1 (fun _ => []) [toStr "xp x"] 0 (by decide),
   claim10_amended.2.2.1 (toStr "a\x7bx\x7d") 1 3 (by decide) (by decide) (by decide),
   claim10_amended.2.2.2.1 (toStr "a\x7bx\x7d") (by decide) (by decide),
   claim10_amended.2.2.2.2 (toStr "") 1 (by decide)⟩
